import Mathlib

/-!
Verification of the control-dependence-graph construction in
`lib/Analysis/ControlDependenceGraph.cpp` (Ferrante et al. style CDG).

Shallow embedding:
* basic blocks are natural numbers; a procedure is its ordered block list
  together with a terminator map (`CFG`);
* the post-dominator tree is an external input, given as an
  immediate-post-dominator association list (`PDTL`); the tree interface
  used by the C++ code (`dominates`, `findNearestCommonDominator`,
  immediate-dominator chains, post-order traversal) is computed from it;
* graph nodes are identified by allocation index (the root is node 0,
  then one node per block in function order, then regions in creation
  order), matching `new` allocation identity in the C++;
* each `std::set` member of `ControlDependenceNode` (`TrueChildren`,
  `FalseChildren`, `OtherChildren`, `Parents`) is an ordered
  duplicate-free list of node ids kept canonical by sorted insertion and
  erasure, which is exactly the ordered-set semantics of `std::set`.
-/

/-- Sorted duplicate-preserving-free insertion: the `std::set::insert` of a
set of naturals kept as an ascending list. -/
def sinsert (x : Nat) : List Nat → List Nat
  | [] => [x]
  | y :: l => if x < y then x :: y :: l else if x = y then y :: l else y :: sinsert x l

/-- `std::set::erase` on the list representation. -/
def serase (x : Nat) (l : List Nat) : List Nat := l.filter (fun y => y != x)

/-- Edge classification, `ControlDependenceNode::EdgeType`. -/
inductive EdgeType where
  | TRUE : EdgeType
  | FALSE : EdgeType
  | OTHER : EdgeType
deriving DecidableEq

def EdgeType.toNat : EdgeType → Nat
  | .TRUE => 0
  | .FALSE => 1
  | .OTHER => 2

/-- Terminator of a basic block.  `getEdgeType` only distinguishes a
conditional `BranchInst` (with its true successor and false successor)
from every other terminator shape; the successor list of any other
terminator (unconditional branch, return, switch, ...) is carried
explicitly. -/
inductive Term where
  | condbr (t f : Nat) : Term
  | other (succ : List Nat) : Term
deriving DecidableEq

/-- A procedure: its blocks in function iteration order (the head is the
entry block) and each block's terminator. -/
structure CFG where
  blocks : List Nat
  term : Nat → Term

/-- CFG successors of a block, derived from its terminator. -/
def succs (cfg : CFG) (b : Nat) : List Nat :=
  match cfg.term b with
  | .condbr t f => [t, f]
  | .other l => l

/-- One CDG node, `ControlDependenceNode`: an optional backing block
(`none` marks a region) and the four `std::set` edge sets. -/
structure CDNode where
  block : Option Nat
  TrueChildren : List Nat
  FalseChildren : List Nat
  OtherChildren : List Nat
  Parents : List Nat
deriving DecidableEq

def emptyNode : CDNode := ⟨none, [], [], [], []⟩

def blockNode (b : Nat) : CDNode := ⟨some b, [], [], [], []⟩

/-- Association-list lookup (node ids and blocks are keys). -/
def alookup {α : Type} (l : List (Nat × α)) (i : Nat) : Option α :=
  (l.find? (fun e => e.1 == i)).map (fun e => e.2)

/-- Association-list write: replace the binding of `i`, or append one. -/
def aset {α : Type} (i : Nat) (v : α) : List (Nat × α) → List (Nat × α)
  | [] => [(i, v)]
  | e :: l => if e.1 = i then (i, v) :: l else e :: aset i v l

/-- The graph under construction, `ControlDependenceGraphBase`: the node-id
set, the per-id node data, the block-to-node map `bbMap` and the next free
allocation index.  The root is always node 0. -/
structure CDG where
  nodes : List Nat
  nodeData : List (Nat × CDNode)
  bbMap : List (Nat × Nat)
  nextId : Nat
deriving DecidableEq

/-- The data of node `i` (every allocated node has a binding). -/
def CDG.dataOf (g : CDG) (i : Nat) : CDNode :=
  (alookup g.nodeData i).getD emptyNode

/-- `bbMap` lookup: the node of block `b`, if any. -/
def CDG.bbOf (g : CDG) (b : Nat) : Option Nat :=
  alookup g.bbMap b

def CDG.upd (g : CDG) (i : Nat) (f : CDNode → CDNode) : CDG :=
  { g with nodeData := aset i (f (g.dataOf i)) g.nodeData }

/-- `ControlDependenceNode::addTrue`. -/
def addTrue (p c : Nat) (g : CDG) : CDG :=
  g.upd p (fun n => { n with TrueChildren := sinsert c n.TrueChildren })

/-- `ControlDependenceNode::addFalse`. -/
def addFalse (p c : Nat) (g : CDG) : CDG :=
  g.upd p (fun n => { n with FalseChildren := sinsert c n.FalseChildren })

/-- `ControlDependenceNode::addOther`. -/
def addOther (p c : Nat) (g : CDG) : CDG :=
  g.upd p (fun n => { n with OtherChildren := sinsert c n.OtherChildren })

/-- `ControlDependenceNode::addParent`. -/
def addParent (c p : Nat) (g : CDG) : CDG :=
  g.upd c (fun n => { n with Parents := sinsert p n.Parents })

/-- `ControlDependenceNode::removeTrue`. -/
def removeTrue (p c : Nat) (g : CDG) : CDG :=
  g.upd p (fun n => { n with TrueChildren := serase c n.TrueChildren })

/-- `ControlDependenceNode::removeFalse`. -/
def removeFalse (p c : Nat) (g : CDG) : CDG :=
  g.upd p (fun n => { n with FalseChildren := serase c n.FalseChildren })

/-- `ControlDependenceNode::removeOther`. -/
def removeOther (p c : Nat) (g : CDG) : CDG :=
  g.upd p (fun n => { n with OtherChildren := serase c n.OtherChildren })

/-- `ControlDependenceNode::removeParent`. -/
def removeParent (c p : Nat) (g : CDG) : CDG :=
  g.upd c (fun n => { n with Parents := serase p n.Parents })

/-- Dispatch an edge addition on its type (the `switch` statements of the
C++ code). -/
def addChild : EdgeType → Nat → Nat → CDG → CDG
  | .TRUE, p, c, g => addTrue p c g
  | .FALSE, p, c, g => addFalse p c g
  | .OTHER, p, c, g => addOther p c g

/-- Dispatch an edge removal on its type. -/
def removeChild : EdgeType → Nat → Nat → CDG → CDG
  | .TRUE, p, c, g => removeTrue p c g
  | .FALSE, p, c, g => removeFalse p c g
  | .OTHER, p, c, g => removeOther p c g

/-- The child set of a node selected by edge type. -/
def childSet : EdgeType → CDNode → List Nat
  | .TRUE, n => n.TrueChildren
  | .FALSE, n => n.FalseChildren
  | .OTHER, n => n.OtherChildren

/-- `ControlDependenceGraphBase::getEdgeType`.  The `assert(false)` branch
for a conditional branch whose successors do not include `B` is modelled as
`none` (a fatal invariant failure); every terminator that is not a
conditional branch yields `OTHER`. -/
def getEdgeType (cfg : CFG) (A B : Nat) : Option EdgeType :=
  match cfg.term A with
  | .condbr t f =>
    if t = B then some .TRUE
    else if f = B then some .FALSE
    else none
  | .other _ => some .OTHER

/-! ## The post-dominator tree interface

The tree is an association list `PDTL` mapping each real block to its
immediate post-dominator (`some b`), or to `none` when its immediate
post-dominator is the virtual exit root.  A block absent from the list has
no tree node (`pdt[B] == NULL` in the C++). -/

abbrev PDTL := List (Nat × Option Nat)

def pdtLookup (p : PDTL) (b : Nat) : Option (Option Nat) :=
  (p.find? (fun e => e.1 == b)).map (fun e => e.2)

/-- Ancestor chain of `b` in the post-dominator tree, from `b` itself up to
the last real block below the virtual root (fuelled; `p.length + 1` fuel is
always enough for an acyclic tree). -/
def ancestorsGo (p : PDTL) : Nat → Nat → List Nat
  | 0, _ => []
  | fuel + 1, b =>
    match pdtLookup p b with
    | none => []
    | some none => [b]
    | some (some q) => b :: ancestorsGo p fuel q

def ancestors (p : PDTL) (b : Nat) : List Nat := ancestorsGo p (p.length + 1) b

/-- `pdt.dominates(x, y)`: `x` post-dominates `y` (reflexively). -/
abbrev pdom (p : PDTL) (x y : Nat) : Prop := x ∈ ancestors p y

/-- `pdt.findNearestCommonDominator(a, b)`: the deepest ancestor of `a`
that also post-dominates `b`; `none` when only the virtual root is common. -/
def nca (p : PDTL) (a b : Nat) : Option Nat :=
  (ancestors p a).find? (fun x => (ancestors p b).contains x)

/-- The walk `for (cur = pdt[B]; cur && cur != pdt[L]; cur = cur->getIDom())`:
the ancestors of `B` up to but excluding `L`. -/
def chainTo (p : PDTL) (b : Nat) (L : Option Nat) : List Nat :=
  match L with
  | some l => (ancestors p b).takeWhile (fun c => c != l)
  | none => ancestors p b

def pdtChildren (p : PDTL) (par : Option Nat) : List Nat :=
  (p.filter (fun e => e.2 == par)).map (fun e => e.1)

/-- Post-order traversal of the post-dominator tree (children first), real
blocks only — the `po_iterator<PostDominatorTree*>` of `insertRegions`
(the blockless virtual root is skipped there). -/
def poGo (p : PDTL) : Nat → Option Nat → List Nat
  | 0, _ => []
  | fuel + 1, par =>
    ((pdtChildren p par).flatMap (fun c => poGo p fuel (some c))) ++
      (match par with
       | some b => [b]
       | none => [])

def poBlocks (p : PDTL) : List Nat := poGo p (p.length + 1) none

/-! ## Dependency computation -/

/-- Node allocation for one basic block (the first loop of
`computeDependencies`). -/
def addBlockNode (g : CDG) (b : Nat) : CDG :=
  { nodes := sinsert g.nextId g.nodes
    nodeData := aset g.nextId (blockNode b) g.nodeData
    bbMap := aset b g.nextId g.bbMap
    nextId := g.nextId + 1 }

/-- Root allocation plus one node per block. -/
def initGraph (cfg : CFG) : CDG :=
  cfg.blocks.foldl addBlockNode ⟨[0], [(0, emptyNode)], [], 1⟩

/-- The edge type actually used inside `computeDependencies` (there `B` is
always a CFG successor of `A`, so the `assert(false)` case of
`getEdgeType` cannot fire; `OTHER` is the C++ fall-through value). -/
def edgeTypeUsed (cfg : CFG) (A B : Nat) : EdgeType :=
  (getEdgeType cfg A B).getD .OTHER

/-- Record one dependence: `AN->addX(CN); CN->addParent(AN);`. -/
def addDep (t : EdgeType) (an cn : Nat) (g : CDG) : CDG :=
  addParent cn an (addChild t an cn g)

/-- One step of the chain walk of `computeDependencies`: record a
dependence of type `t` from `A`'s node `an` on the node of chain block
`C`. -/
def depStep (t : EdgeType) (an : Nat) (h : CDG) (C : Nat) : CDG :=
  match h.bbOf C with
  | some cn => addDep t an cn h
  | none => h

/-- Processing of one CFG edge `A -> B` inside the successor loop of
`computeDependencies` (lines 116–147 of the C++): if `A == B` or `B` does
not post-dominate `A`, compute `L` and the edge type, record the
self-dependence when `A == L`, then record a dependence on `A` for every
block on the tree chain from `B` up to but excluding `L`. -/
def processEdge (cfg : CFG) (p : PDTL) (g : CDG) (A B : Nat) : CDG :=
  if A = B ∨ ¬ pdom p B A then
    match g.bbOf A with
    | none => g
    | some an =>
      let L := nca p A B
      let t := edgeTypeUsed cfg A B
      let g1 := if L = some A then addParent an an (addChild t an an g) else g
      (chainTo p B L).foldl (depStep t an) g1
  else g

/-- The per-edge dependence loop of `computeDependencies` (all blocks, all
successors). -/
def depsLoop (cfg : CFG) (p : PDTL) (g : CDG) : CDG :=
  cfg.blocks.foldl
    (fun h A => (succs cfg A).foldl (fun h2 B => processEdge cfg p h2 A B) h) g

/-- The `ENTRY -> START` walk of `computeDependencies`: the chain of
post-dominators of the entry block is hung below the root with `OTHER`
edges. -/
def entryWire (cfg : CFG) (p : PDTL) (g : CDG) : CDG :=
  match cfg.blocks with
  | [] => g
  | entry :: _ =>
    (ancestors p entry).foldl
      (fun h C =>
        match h.bbOf C with
        | some cn => addParent cn 0 (addOther 0 cn h)
        | none => h) g

/-- `ControlDependenceGraphBase::computeDependencies`: node allocation, the
per-edge dependence loop, then the `ENTRY -> START` walk. -/
def computeDependencies (cfg : CFG) (p : PDTL) : CDG :=
  entryWire cfg p (depsLoop cfg p (initGraph cfg))

/-! ## Region insertion -/

/-- A `(edgeType, parent)` pair of a dependency signature, encoded as the
single natural number `3 * parent + edgeType`. -/
def sigCode (t : EdgeType) (p : Nat) : Nat := 3 * p + t.toNat

def sigType (c : Nat) : EdgeType :=
  if c % 3 = 0 then .TRUE else if c % 3 = 1 then .FALSE else .OTHER

def sigParent (c : Nat) : Nat := c / 3

/-- The signature pairs contributed by one parent `q` of node `n`:
membership of `n` in each of `q`'s three child sets is tested
independently. -/
def sigAt (g : CDG) (n q : Nat) : List Nat :=
  (if n ∈ (g.dataOf q).TrueChildren then [sigCode .TRUE q] else []) ++
    (if n ∈ (g.dataOf q).FalseChildren then [sigCode .FALSE q] else []) ++
      (if n ∈ (g.dataOf q).OtherChildren then [sigCode .OTHER q] else [])

/-- The dependency signature of node `n`: the set of `(edgeType, parent)`
pairs induced by scanning all current parents, kept canonical (ascending)
so that signature equality is `std::set` equality. -/
def signatureOf (g : CDG) (n : Nat) : List Nat :=
  (g.dataOf n).Parents.foldl (fun s q => (sigAt g n q).foldl (fun s2 c => sinsert c s2) s) []

abbrev CDMap := List (List Nat × Nat)

def cdLookup (m : CDMap) (s : List Nat) : Option Nat :=
  (m.find? (fun e => decide (e.1 = s))).map (fun e => e.2)

/-- Allocate a fresh region node. -/
def allocRegion (g : CDG) : CDG × Nat :=
  (⟨sinsert g.nextId g.nodes,
    aset g.nextId emptyNode g.nodeData,
    g.bbMap, g.nextId + 1⟩, g.nextId)

/-- For a freshly created region: attach it as a child of the right type of
every signature parent and record those parents. -/
def attachRegion (region : Nat) (g : CDG) (cds : List Nat) : CDG :=
  cds.foldl
    (fun h c => addParent region (sigParent c) (addChild (sigType c) (sigParent c) region h))
    g

/-- The rewiring loop of `insertRegions` (lines 213–228): for every
signature pair, remove the direct edge to `n`, make `n` an `OTHER` child of
the region, add the region as a parent of `n`, and only then remove the old
parent — exactly in the C++ statement order. -/
def rewireNode (region n : Nat) (cds : List Nat) (g : CDG) : CDG :=
  cds.foldl
    (fun h c =>
      removeParent n (sigParent c)
        (addParent n region
          (addOther region n
            (removeChild (sigType c) (sigParent c) n h))))
    g

/-- Processing of one post-order block in the main loop of
`insertRegions`: compute the signature, look it up in the canonical table,
reuse or create the region, and rewire the node. -/
def regionStep (st : CDG × CDMap) (b : Nat) : CDG × CDMap :=
  let g := st.1
  let m := st.2
  match g.bbOf b with
  | none => (g, m)
  | some n =>
    let cds := signatureOf g n
    match cdLookup m cds with
    | some region => (rewireNode region n cds g, m)
    | none =>
      let gr := allocRegion g
      let g2 := attachRegion gr.2 gr.1 cds
      (rewireNode gr.2 n cds g2, (cds, gr.2) :: m)

/-- The canonical-signature main loop of `insertRegions`, with the table
seeded with `{(OTHER, root)} -> root`. -/
def regionMainLoop (p : PDTL) (g : CDG) : CDG :=
  ((poBlocks p).foldl regionStep (g, [([sigCode .OTHER 0], 0)])).1

/-- Reparenting of one TRUE child `c` of `n` under the repair region `r`
(the body of the loop at lines 243–253): `region->addOther(child);
child->addParent(region); child->removeParent(node);
node->removeTrue(child);`. -/
def moveTrueChild (n r : Nat) (h : CDG) (c : Nat) : CDG :=
  removeTrue n c (removeParent c n (addParent c r (addOther r c h)))

/-- Reparenting of one FALSE child `c` of `n` under the repair region. -/
def moveFalseChild (n r : Nat) (h : CDG) (c : Nat) : CDG :=
  removeFalse n c (removeParent c n (addParent c r (addOther r c h)))

/-- Fix-up of one node with more than one TRUE child (lines 240–255): a
fresh region adopts all TRUE children as OTHER children (with parent links
moved) and becomes the sole TRUE child. -/
def repairTrue (g : CDG) (n : Nat) : CDG :=
  if 1 < ((g.dataOf n).TrueChildren).length then
    let gr := allocRegion g
    let tc := (gr.1.dataOf n).TrueChildren
    addTrue n gr.2 (tc.foldl (moveTrueChild n gr.2) gr.1)
  else g

/-- Fix-up of one node with more than one FALSE child (lines 258–270). -/
def repairFalse (g : CDG) (n : Nat) : CDG :=
  if 1 < ((g.dataOf n).FalseChildren).length then
    let gr := allocRegion g
    let fc := (gr.1.dataOf n).FalseChildren
    addFalse n gr.2 (fc.foldl (moveFalseChild n gr.2) gr.1)
  else g

/-- One step of the binary-invariant repair pass: regions are skipped. -/
def repairNode (g : CDG) (n : Nat) : CDG :=
  if (g.dataOf n).block = none then g
  else repairFalse (repairTrue g n) n

/-- The final repair pass over all nodes (freshly inserted regions are
skipped by the `isRegion` test in the C++, so folding over the incoming
node set is equivalent). -/
def repairPass (g : CDG) : CDG :=
  g.nodes.foldl repairNode g

/-- `ControlDependenceGraphBase::insertRegions`. -/
def insertRegions (p : PDTL) (g : CDG) : CDG :=
  repairPass (regionMainLoop p g)

/-- `ControlDependenceGraphBase::graphForFunction`: the two-phase builder. -/
def graphForFunction (cfg : CFG) (p : PDTL) : CDG :=
  insertRegions p (computeDependencies cfg p)

/-! ## Query layer

Both queries are loops in the C++; they are embedded with an explicit fuel
parameter, `none` meaning the loop has not finished within the given fuel.
A `some` result is the value the C++ loop returns. -/

/-- The single-parent walk of `ControlDependenceGraphBase::controls`:
while the current node has exactly one parent, move to it and test its
block against `A`. -/
def controlsFuel (g : CDG) (A : Nat) : Nat → Nat → Option Bool
  | 0, _ => none
  | fuel + 1, n =>
    match (g.dataOf n).Parents with
    | [q] =>
      if (g.dataOf q).block = some A then some true
      else controlsFuel g A fuel q
    | _ => some false

/-- `controls(A, B)` starting from `B`'s node (`none` also models the
assertion on a block without a node). -/
def controls (g : CDG) (A B : Nat) (fuel : Nat) : Option Bool :=
  match g.bbOf B with
  | some nb => controlsFuel g A fuel nb
  | none => none

/-- The worklist loop of `ControlDependenceGraphBase::influences`:
pop the front node, test its block, push all its parents at the back. -/
def influencesFuel (g : CDG) (A : Nat) : Nat → List Nat → Option Bool
  | _, [] => some false
  | 0, _ :: _ => none
  | fuel + 1, n :: rest =>
    if (g.dataOf n).block = some A then some true
    else influencesFuel g A fuel (rest ++ (g.dataOf n).Parents)

/-- `influences(A, B)` starting from the parents of `B`'s node. -/
def influences (g : CDG) (A B : Nat) (fuel : Nat) : Option Bool :=
  match g.bbOf B with
  | some nb => influencesFuel g A fuel ((g.dataOf nb).Parents)
  | none => none

/-- Well-formedness of the allocation skeleton: every allocated node id is
below the next allocation index (automatic for the C++ code, where node
identity is the address of a fresh `new`). -/
def wfIds (g : CDG) : Prop := ∀ m ∈ g.nodes, m < g.nextId

/-- `controls(A, B)` terminates: some fuel makes the single-parent walk
finish with a result (the C++ `while` loop returns). -/
def controlsTerminates (g : CDG) (A B : Nat) : Prop :=
  ∃ fuel r, controls g A B fuel = some r

/-- Reachability through parent links, in zero or more steps (the paths the
`influences` worklist explores). -/
inductive ParentReach (g : CDG) : Nat → Nat → Prop where
  | refl (x : Nat) : ParentReach g x x
  | step {x p m : Nat} :
      p ∈ (g.dataOf x).Parents → ParentReach g p m → ParentReach g x m

/-! ## Concrete procedures

Five small procedures exercise the construction: a one-block body, the
straight-line `Entry -> Mid -> Exit` of spec scenario 1, the `if` diamond
of scenario 2, the `while` loop of scenario 3, and a procedure with an
unreachable conditional self-loop.  For each, the pipeline stages are
named literal graphs so that facts about the built graph reduce cheaply. -/

/-- One block `0` that just returns. -/
def cfgOne : CFG := ⟨[0], fun _ => .other []⟩

def pdtOne : PDTL := [(0, none)]

/-- Straight-line blocks `0 -> 1 -> 2` (Entry, Mid, Exit), scenario 1. -/
def cfgLine : CFG :=
  ⟨[0, 1, 2], fun b => if b = 0 then .other [1] else if b = 1 then .other [2] else .other []⟩

def pdtLine : PDTL := [(0, some 1), (1, some 2), (2, none)]

/-- The `if` diamond: `0` branches true to `1`, false to `2`, both join `3`. -/
def cfgIf : CFG :=
  ⟨[0, 1, 2, 3], fun b => if b = 0 then .condbr 1 2 else if b = 3 then .other [] else .other [3]⟩

def pdtIf : PDTL := [(0, some 3), (1, some 3), (2, some 3), (3, none)]

/-- The `while` loop of scenario 3: header `0` branches true into body `1`
(which returns to `0`) and false to exit `2`. -/
def cfgLoop : CFG :=
  ⟨[0, 1, 2], fun b => if b = 0 then .condbr 1 2 else if b = 1 then .other [0] else .other []⟩

def pdtLoop : PDTL := [(0, some 2), (1, some 0), (2, none)]

/-- Entry `0` falls through to exit `1`; block `2` is an unreachable
conditional self-loop (`2` branches true to itself, false to `1`). -/
def cfgSelf : CFG :=
  ⟨[0, 1, 2], fun b => if b = 0 then .other [1] else if b = 2 then .condbr 2 1 else .other []⟩

def pdtSelf : PDTL := [(0, some 1), (1, none), (2, some 1)]

/-! Stage literals for `cfgOne`. -/

def gOne0 : CDG := ⟨[0, 1],
  [(0, ⟨none, [], [], [], []⟩),
   (1, ⟨some 0, [], [], [], []⟩)],
  [(0, 1)], 2⟩

def gOneE : CDG := ⟨[0, 1],
  [(0, ⟨none, [], [], [1], []⟩),
   (1, ⟨some 0, [], [], [], [0]⟩)],
  [(0, 1)], 2⟩

def gOneF : CDG := ⟨[0, 1],
  [(0, ⟨none, [], [], [1], []⟩),
   (1, ⟨some 0, [], [], [], []⟩)],
  [(0, 1)], 2⟩

def gOneS : CDG := ⟨[0, 1, 2],
  [(0, ⟨none, [], [], [1], []⟩),
   (1, ⟨some 0, [], [], [], []⟩),
   (2, ⟨none, [], [], [], []⟩)],
  [(0, 1)], 3⟩

/-! Stage literals for `cfgLine`. -/

def gLine0 : CDG := ⟨[0, 1, 2, 3],
  [(0, ⟨none, [], [], [], []⟩),
   (1, ⟨some 0, [], [], [], []⟩),
   (2, ⟨some 1, [], [], [], []⟩),
   (3, ⟨some 2, [], [], [], []⟩)],
  [(0, 1), (1, 2), (2, 3)], 4⟩

def gLineE : CDG := ⟨[0, 1, 2, 3],
  [(0, ⟨none, [], [], [1, 2, 3], []⟩),
   (1, ⟨some 0, [], [], [], [0]⟩),
   (2, ⟨some 1, [], [], [], [0]⟩),
   (3, ⟨some 2, [], [], [], [0]⟩)],
  [(0, 1), (1, 2), (2, 3)], 4⟩

def gLineF : CDG := ⟨[0, 1, 2, 3],
  [(0, ⟨none, [], [], [1, 2, 3], []⟩),
   (1, ⟨some 0, [], [], [], []⟩),
   (2, ⟨some 1, [], [], [], []⟩),
   (3, ⟨some 2, [], [], [], []⟩)],
  [(0, 1), (1, 2), (2, 3)], 4⟩

/-! Stage literals for `cfgLoop`. -/

def gLoop0 : CDG := ⟨[0, 1, 2, 3],
  [(0, ⟨none, [], [], [], []⟩),
   (1, ⟨some 0, [], [], [], []⟩),
   (2, ⟨some 1, [], [], [], []⟩),
   (3, ⟨some 2, [], [], [], []⟩)],
  [(0, 1), (1, 2), (2, 3)], 4⟩

def gLoopD : CDG := ⟨[0, 1, 2, 3],
  [(0, ⟨none, [], [], [], []⟩),
   (1, ⟨some 0, [1, 2], [], [], [1]⟩),
   (2, ⟨some 1, [], [], [], [1]⟩),
   (3, ⟨some 2, [], [], [], []⟩)],
  [(0, 1), (1, 2), (2, 3)], 4⟩

def gLoopE : CDG := ⟨[0, 1, 2, 3],
  [(0, ⟨none, [], [], [1, 3], []⟩),
   (1, ⟨some 0, [1, 2], [], [], [0, 1]⟩),
   (2, ⟨some 1, [], [], [], [1]⟩),
   (3, ⟨some 2, [], [], [], [0]⟩)],
  [(0, 1), (1, 2), (2, 3)], 4⟩

def gLoopR : CDG := ⟨[0, 1, 2, 3, 4, 5],
  [(0, ⟨none, [], [], [3, 5], []⟩),
   (1, ⟨some 0, [4, 5], [], [], [5]⟩),
   (2, ⟨some 1, [], [], [], [4]⟩),
   (3, ⟨some 2, [], [], [], []⟩),
   (4, ⟨none, [], [], [2], [1]⟩),
   (5, ⟨none, [], [], [1], [0, 1]⟩)],
  [(0, 1), (1, 2), (2, 3)], 6⟩

def gLoopF : CDG := ⟨[0, 1, 2, 3, 4, 5, 6],
  [(0, ⟨none, [], [], [3, 5], []⟩),
   (1, ⟨some 0, [6], [], [], [5]⟩),
   (2, ⟨some 1, [], [], [], [4]⟩),
   (3, ⟨some 2, [], [], [], []⟩),
   (4, ⟨none, [], [], [2], [6]⟩),
   (5, ⟨none, [], [], [1], [0, 6]⟩),
   (6, ⟨none, [], [], [4, 5], []⟩)],
  [(0, 1), (1, 2), (2, 3)], 7⟩

/-! Stage literals for `cfgSelf`. -/

def gSelf0 : CDG := ⟨[0, 1, 2, 3],
  [(0, ⟨none, [], [], [], []⟩),
   (1, ⟨some 0, [], [], [], []⟩),
   (2, ⟨some 1, [], [], [], []⟩),
   (3, ⟨some 2, [], [], [], []⟩)],
  [(0, 1), (1, 2), (2, 3)], 4⟩

def gSelfD : CDG := ⟨[0, 1, 2, 3],
  [(0, ⟨none, [], [], [], []⟩),
   (1, ⟨some 0, [], [], [], []⟩),
   (2, ⟨some 1, [], [], [], []⟩),
   (3, ⟨some 2, [3], [], [], [3]⟩)],
  [(0, 1), (1, 2), (2, 3)], 4⟩

def gSelfE : CDG := ⟨[0, 1, 2, 3],
  [(0, ⟨none, [], [], [1, 2], []⟩),
   (1, ⟨some 0, [], [], [], [0]⟩),
   (2, ⟨some 1, [], [], [], [0]⟩),
   (3, ⟨some 2, [3], [], [], [3]⟩)],
  [(0, 1), (1, 2), (2, 3)], 4⟩

def gSelfF : CDG := ⟨[0, 1, 2, 3, 4],
  [(0, ⟨none, [], [], [1, 2], []⟩),
   (1, ⟨some 0, [], [], [], []⟩),
   (2, ⟨some 1, [], [], [], []⟩),
   (3, ⟨some 2, [4], [], [], [4]⟩),
   (4, ⟨none, [], [], [3], [3]⟩)],
  [(0, 1), (1, 2), (2, 3)], 5⟩

/-! ## Stage equalities for the concrete procedures -/

lemma one_init : initGraph cfgOne = gOne0 := by decide

lemma one_deps : depsLoop cfgOne pdtOne gOne0 = gOne0 := by decide

lemma one_entry : entryWire cfgOne pdtOne gOne0 = gOneE := by decide

lemma one_region : regionMainLoop pdtOne gOneE = gOneF := by decide

lemma one_repair : repairPass gOneF = gOneF := by decide

lemma one_built : graphForFunction cfgOne pdtOne = gOneF := by
  rw [graphForFunction, computeDependencies, insertRegions, one_init, one_deps,
    one_entry, one_region, one_repair]

lemma one_region_again : regionMainLoop pdtOne gOneF = gOneS := by decide

lemma one_repair_again : repairPass gOneS = gOneS := by decide

lemma line_init : initGraph cfgLine = gLine0 := by decide

lemma line_deps : depsLoop cfgLine pdtLine gLine0 = gLine0 := by decide

lemma line_entry : entryWire cfgLine pdtLine gLine0 = gLineE := by decide

lemma line_region : regionMainLoop pdtLine gLineE = gLineF := by decide

lemma line_repair : repairPass gLineF = gLineF := by decide

lemma line_built : graphForFunction cfgLine pdtLine = gLineF := by
  rw [graphForFunction, computeDependencies, insertRegions, line_init, line_deps,
    line_entry, line_region, line_repair]

lemma loop_init : initGraph cfgLoop = gLoop0 := by decide

lemma loop_deps : depsLoop cfgLoop pdtLoop gLoop0 = gLoopD := by decide

lemma loop_entry : entryWire cfgLoop pdtLoop gLoopD = gLoopE := by decide

lemma loop_region : regionMainLoop pdtLoop gLoopE = gLoopR := by decide

lemma loop_repair : repairPass gLoopR = gLoopF := by decide

lemma loop_built : graphForFunction cfgLoop pdtLoop = gLoopF := by
  rw [graphForFunction, computeDependencies, insertRegions, loop_init, loop_deps,
    loop_entry, loop_region, loop_repair]

lemma self_init : initGraph cfgSelf = gSelf0 := by decide

lemma self_deps : depsLoop cfgSelf pdtSelf gSelf0 = gSelfD := by decide

lemma self_entry : entryWire cfgSelf pdtSelf gSelfD = gSelfE := by decide

lemma self_region : regionMainLoop pdtSelf gSelfE = gSelfF := by decide

lemma self_repair : repairPass gSelfF = gSelfF := by decide

lemma self_built : graphForFunction cfgSelf pdtSelf = gSelfF := by
  rw [graphForFunction, computeDependencies, insertRegions, self_init, self_deps,
    self_entry, self_region, self_repair]

/-! ## Claim C1, C4, C7, C10: evidence of the lost-parent bug

In the rewiring loop of `insertRegions` (lines 213–228) the statement
order is `region->addOther(node); node->addParent(region);
node->removeParent(CD->second);`.  When the signature of `node` is exactly
`{(OTHER, root)}`, the table lookup returns `region == root == CD->second`,
so the parent added is the parent removed: the node ends with **zero**
parents, contradicting the exactly-one-parent invariant that
`enclosingRegion` (line 79) asserts. -/

/-- Claim C1 (code-bug evidence): in the one-block procedure, node 1 is a
non-region node of the finished graph (backing block 0) whose parent set is
empty after region insertion — zero parents, not exactly one. -/
theorem oneBlock_zero_parents :
    1 ∈ (graphForFunction cfgOne pdtOne).nodes ∧
    ((graphForFunction cfgOne pdtOne).dataOf 1).block = some 0 ∧
    ((graphForFunction cfgOne pdtOne).dataOf 1).Parents = [] := by
  rw [one_built]
  decide

/-- Claim C10 (code-bug evidence): in the finished one-block graph the
parent and child relations disagree: node 1 is an `OTHER` child of the
root, yet the root is not in node 1's parent set. -/
theorem oneBlock_parent_child_inconsistent :
    1 ∈ ((graphForFunction cfgOne pdtOne).dataOf 0).OtherChildren ∧
    0 ∉ ((graphForFunction cfgOne pdtOne).dataOf 1).Parents := by
  rw [one_built]
  decide

/-- Claim C4 (code-bug evidence): in the straight-line procedure, blocks
Entry (node 1) and Mid (node 2) have the identical dependency signature
`{(OTHER, root)}` and are indeed both placed as `OTHER` children of the one
shared region (the root), but that region does **not** become the parent of
either: both parent sets end empty. -/
theorem straightline_shared_region_not_parent :
    1 ∈ ((graphForFunction cfgLine pdtLine).dataOf 0).OtherChildren ∧
    2 ∈ ((graphForFunction cfgLine pdtLine).dataOf 0).OtherChildren ∧
    ((graphForFunction cfgLine pdtLine).dataOf 1).Parents = [] ∧
    ((graphForFunction cfgLine pdtLine).dataOf 2).Parents = [] := by
  rw [line_built]
  decide

/-- Claim C7 (code-bug evidence): on the straight-line procedure
`Entry -> Mid -> Exit` (blocks 0, 1, 2), the finished graph answers
`influences(Entry, Mid) = false` — the spec's scenario 1 expects `true` —
while `controls(Mid, Exit) = false` as expected (both loops finish, fuel
10 is ample). -/
theorem straightline_queries :
    influences (graphForFunction cfgLine pdtLine) 0 1 10 = some false ∧
    controls (graphForFunction cfgLine pdtLine) 1 2 10 = some false := by
  rw [line_built]
  decide

/-! ## Claim C8: region insertion is not idempotent -/

/-- Claim C8 (counterexample): on the one-block procedure, running
`insertRegions` a second time on the graph it has already canonicalized
changes the node set. -/
theorem insertRegions_not_idempotent :
    (insertRegions pdtOne (graphForFunction cfgOne pdtOne)).nodes ≠
      (graphForFunction cfgOne pdtOne).nodes := by
  rw [one_built, insertRegions, one_region_again, one_repair_again]
  decide

/-- Claim C8 (amended): a second `insertRegions` run is not a no-op — it
allocates a fresh region: on the one-block procedure the node set grows
from `[0, 1]` to `[0, 1, 2]`, the new node 2 being a parentless childless
region, while the data of the existing nodes 0 and 1 is unchanged. -/
theorem insertRegions_second_run_grows :
    (graphForFunction cfgOne pdtOne).nodes = [0, 1] ∧
    (insertRegions pdtOne (graphForFunction cfgOne pdtOne)).nodes = [0, 1, 2] ∧
    (insertRegions pdtOne (graphForFunction cfgOne pdtOne)).dataOf 2 = emptyNode ∧
    (insertRegions pdtOne (graphForFunction cfgOne pdtOne)).dataOf 0 =
      (graphForFunction cfgOne pdtOne).dataOf 0 ∧
    (insertRegions pdtOne (graphForFunction cfgOne pdtOne)).dataOf 1 =
      (graphForFunction cfgOne pdtOne).dataOf 1 := by
  rw [one_built, insertRegions, one_region_again, one_repair_again]
  decide

/-! ## Claim C9: edge-type lookup on unconnected blocks -/

/-- Claim C9 (counterexample): block 0 of the straight-line procedure ends
in an unconditional branch to block 1; block 2 is not connected to it by
any branch, yet `getEdgeType(0, 2)` silently returns `OTHER` — no fatal
invariant failure is raised for non-conditional terminators. -/
theorem getEdgeType_unconnected_silently_other :
    2 ∉ succs cfgLine 0 ∧ getEdgeType cfgLine 0 2 = some EdgeType.OTHER := by
  decide

/-- Claim C9 (amended): only when `A` ends in a conditional branch and `B`
is neither of its two successors does the lookup hit the
`assert(false && "Asking for edge type between unconnected basic blocks!")`
fatal failure (modelled as `none`) instead of returning an edge type. -/
theorem getEdgeType_condbr_unconnected_fatal (cfg : CFG) (A B t f : Nat)
    (hterm : cfg.term A = Term.condbr t f) (ht : B ≠ t) (hf : B ≠ f) :
    getEdgeType cfg A B = none := by
  rw [getEdgeType, hterm]
  simp [Ne.symm ht, Ne.symm hf]

/-- Witness for the amended claim C9, at the `if`-diamond condition block. -/
theorem getEdgeType_condbr_unconnected_fatal_witness :
    cfgIf.term 0 = Term.condbr 1 2 ∧ (5 : Nat) ≠ 1 ∧ (5 : Nat) ≠ 2 ∧
    getEdgeType cfgIf 0 5 = none :=
  ⟨by decide, by decide, by decide,
    getEdgeType_condbr_unconnected_fatal cfgIf 0 5 1 2 (by decide) (by decide) (by decide)⟩

/-! ## Claim C5: termination of the `controls` walk -/

lemma selfLoop_step_a (f : Nat) :
    controlsFuel gSelfF 0 (f + 1) 3 = controlsFuel gSelfF 0 f 4 := rfl

lemma selfLoop_step_b (f : Nat) :
    controlsFuel gSelfF 0 (f + 1) 4 = controlsFuel gSelfF 0 f 3 := rfl

lemma selfLoop_cycle (f : Nat) :
    controlsFuel gSelfF 0 f 3 = none ∧ controlsFuel gSelfF 0 f 4 = none := by
  induction f with
  | zero => exact ⟨rfl, rfl⟩
  | succ f ih => exact ⟨(selfLoop_step_a f).trans ih.2, (selfLoop_step_b f).trans ih.1⟩

/-- Claim C5 (counterexample): the claim fails as stated.  In `cfgSelf`
the unreachable conditional self-loop block 2 ends up, after region
insertion, in a two-cycle of single-parent nodes (its node 3 and its
region 4 are each other's only parent), so the single-parent walk of
`controls(0, 2)` never finishes: no fuel makes the C++ `while` loop
return. -/
theorem controls_nonterminating_on_self_loop :
    ¬ controlsTerminates (graphForFunction cfgSelf pdtSelf) 0 2 := by
  rw [self_built]
  rintro ⟨fuel, r, hc⟩
  have hb : gSelfF.bbOf 2 = some 3 := by decide
  simp only [controls, hb] at hc
  rw [(selfLoop_cycle fuel).1] at hc
  exact Option.noConfusion hc

/-- If the single-parent walk finishes with `false` for one query block, it
finishes (with some result) for every query block: the walk can only stop
earlier by matching the queried block. -/
lemma controlsFuel_total_of_false (g : CDG) (A : Nat) :
    ∀ fuel n, controlsFuel g A fuel n = some false →
      ∀ A2, ∃ r, controlsFuel g A2 fuel n = some r := by
  intro fuel
  induction fuel with
  | zero => intro n h; exact absurd h (by simp [controlsFuel])
  | succ f ih =>
    intro n h A2
    rcases hp : (g.dataOf n).Parents with _ | ⟨q, _ | ⟨q2, qs⟩⟩
    · exact ⟨false, by simp [controlsFuel, hp]⟩
    · simp only [controlsFuel, hp] at h
      by_cases hA2 : (g.dataOf q).block = some A2
      · exact ⟨true, by simp [controlsFuel, hp, hA2]⟩
      · by_cases hA : (g.dataOf q).block = some A
        · simp [hA] at h
        · simp only [if_neg hA] at h
          obtain ⟨r, hr⟩ := ih q h A2
          exact ⟨r, by simp [controlsFuel, hp, hA2, hr]⟩
    · exact ⟨false, by simp [controlsFuel, hp]⟩

/-- Claim C5 (amended): on the scenario-3 `while`-loop procedure — whose
header is self-dependent through the `A == L` case — every `controls`
query against every block of the procedure terminates; in particular the
self-reference `controls(H, H)` does not loop. -/
theorem controls_terminates_on_while_loop (A B : Nat) (hB : B ∈ cfgLoop.blocks) :
    controlsTerminates (graphForFunction cfgLoop pdtLoop) A B := by
  rw [loop_built]
  have hB3 : B = 0 ∨ B = 1 ∨ B = 2 := by
    simpa [cfgLoop] using hB
  rcases hB3 with rfl | rfl | rfl
  · obtain ⟨r, hr⟩ := controlsFuel_total_of_false gLoopF 99 10 1 (by decide) A
    exact ⟨10, r, by have hb : gLoopF.bbOf 0 = some 1 := by decide
                     simp only [controls, hb]; exact hr⟩
  · obtain ⟨r, hr⟩ := controlsFuel_total_of_false gLoopF 99 10 2 (by decide) A
    exact ⟨10, r, by have hb : gLoopF.bbOf 1 = some 2 := by decide
                     simp only [controls, hb]; exact hr⟩
  · obtain ⟨r, hr⟩ := controlsFuel_total_of_false gLoopF 99 10 3 (by decide) A
    exact ⟨10, r, by have hb : gLoopF.bbOf 2 = some 3 := by decide
                     simp only [controls, hb]; exact hr⟩

/-- Witness for the amended claim C5: the self-query on the loop header. -/
theorem controls_terminates_on_while_loop_witness :
    0 ∈ cfgLoop.blocks ∧ controlsTerminates (graphForFunction cfgLoop pdtLoop) 0 0 :=
  ⟨by decide, controls_terminates_on_while_loop 0 0 (by decide)⟩

/-! ## Claim C6: `controls` implies `influences` -/

/-- If some node in the worklist carries the queried block, the FIFO loop
of `influences` eventually pops it (or answers `true` even earlier). -/
lemma influencesFuel_hits (g : CDG) (A : Nat) (x : Nat)
    (hx : (g.dataOf x).block = some A) :
    ∀ q1 q2, ∃ f, influencesFuel g A f (q1 ++ x :: q2) = some true := by
  intro q1
  induction q1 with
  | nil => exact fun q2 => ⟨1, by simp [influencesFuel, hx]⟩
  | cons n q1 ih =>
    intro q2
    by_cases hn : (g.dataOf n).block = some A
    · exact ⟨1, by simp [influencesFuel, hn]⟩
    · obtain ⟨f0, h0⟩ := ih (q2 ++ (g.dataOf n).Parents)
      refine ⟨f0 + 1, ?_⟩
      simp only [List.cons_append, influencesFuel, if_neg hn]
      simpa only [List.append_eq, List.append_assoc, List.cons_append] using h0

/-- If some node in the worklist has `p` among its parents, then whatever
makes every worklist containing `p` succeed also makes this one succeed. -/
lemma influencesFuel_step (g : CDG) (A : Nat) (x p : Nat)
    (hp : p ∈ (g.dataOf x).Parents)
    (hind : ∀ r1 r2, ∃ f, influencesFuel g A f (r1 ++ p :: r2) = some true) :
    ∀ q1 q2, ∃ f, influencesFuel g A f (q1 ++ x :: q2) = some true := by
  intro q1
  induction q1 with
  | nil =>
    intro q2
    by_cases hx : (g.dataOf x).block = some A
    · exact ⟨1, by simp [influencesFuel, hx]⟩
    · obtain ⟨s, t, hst⟩ := List.append_of_mem hp
      obtain ⟨f0, h0⟩ := hind (q2 ++ s) t
      refine ⟨f0 + 1, ?_⟩
      simp only [List.nil_append, influencesFuel, if_neg hx]
      rw [hst, ← List.append_assoc]
      exact h0
  | cons n q1 ih =>
    intro q2
    by_cases hn : (g.dataOf n).block = some A
    · exact ⟨1, by simp [influencesFuel, hn]⟩
    · obtain ⟨f0, h0⟩ := ih (q2 ++ (g.dataOf n).Parents)
      refine ⟨f0 + 1, ?_⟩
      simp only [List.cons_append, influencesFuel, if_neg hn]
      simpa only [List.append_eq, List.append_assoc, List.cons_append] using h0

/-- Any parent-reachable node whose block is `A` is found by the
`influences` worklist loop, wherever the start node sits in the queue. -/
lemma parentReach_influencesFuel (g : CDG) (A : Nat) :
    ∀ x m, ParentReach g x m → (g.dataOf m).block = some A →
      ∀ q1 q2, ∃ f, influencesFuel g A f (q1 ++ x :: q2) = some true := by
  intro x m hr
  induction hr with
  | refl x => exact fun hm => influencesFuel_hits g A x hm
  | step hp _ ih =>
    intro hm
    exact influencesFuel_step g A _ _ hp (fun r1 r2 => ih hm r1 r2)

/-- A successful `controls` walk exhibits a parent path: one step to the
single parent, then zero or more further single-parent steps, ending at a
node backed by `A`. -/
lemma controlsFuel_reaches (g : CDG) (A : Nat) :
    ∀ fuel n, controlsFuel g A fuel n = some true →
      ∃ p m, p ∈ (g.dataOf n).Parents ∧ ParentReach g p m ∧
        (g.dataOf m).block = some A := by
  intro fuel
  induction fuel with
  | zero => intro n h; exact absurd h (by simp [controlsFuel])
  | succ f ih =>
    intro n h
    rcases hp : (g.dataOf n).Parents with _ | ⟨q, _ | ⟨q2, qs⟩⟩
    · rw [controlsFuel, hp] at h
      exact absurd h (by simp)
    · simp only [controlsFuel, hp] at h
      by_cases hA : (g.dataOf q).block = some A
      · exact ⟨q, q, List.mem_singleton.mpr rfl, ParentReach.refl q, hA⟩
      · rw [if_neg hA] at h
        obtain ⟨p2, m, hp2, hr, hm⟩ := ih q h
        exact ⟨q, m, List.mem_singleton.mpr rfl, ParentReach.step hp2 hr, hm⟩
    · rw [controlsFuel, hp] at h
      exact absurd h (by simp)

/-- Claim C6: for any graph, whenever `controls(A, B)` returns `true`
(within some fuel), `influences(A, B)` also returns `true` (within some
fuel): the single-parent chain found by `controls` is one of the parent
paths the `influences` worklist explores. -/
theorem controls_implies_influences (g : CDG) (A B fuel : Nat)
    (h : controls g A B fuel = some true) :
    ∃ fuel2, influences g A B fuel2 = some true := by
  rcases hb : g.bbOf B with _ | nb
  · rw [controls, hb] at h
    exact Option.noConfusion h
  · rw [controls, hb] at h
    obtain ⟨p, m, hp, hr, hm⟩ := controlsFuel_reaches g A fuel nb h
    obtain ⟨s, t, hst⟩ := List.append_of_mem hp
    obtain ⟨f, hf⟩ := parentReach_influencesFuel g A p m hr hm s t
    refine ⟨f, ?_⟩
    simp only [influences, hb]
    rw [hst]
    exact hf

/-- Witness for claim C6: in the `cfgSelf` procedure, block 2 controls
itself (its conditional self-loop makes `controls(2, 2)` return `true`),
hence it also influences itself. -/
theorem controls_implies_influences_witness :
    controls (graphForFunction cfgSelf pdtSelf) 2 2 5 = some true ∧
    ∃ fuel2, influences (graphForFunction cfgSelf pdtSelf) 2 2 fuel2 = some true :=
  ⟨by rw [self_built]; decide,
    controls_implies_influences (graphForFunction cfgSelf pdtSelf) 2 2 5
      (by rw [self_built]; decide)⟩

/-! ## Claim C2: the per-edge dependence contract

Small projection lemmas about the node-mutation operations, then the
specification of `processEdge` against the spec's wording. -/

lemma mem_sinsert {a x : Nat} {l : List Nat} : a ∈ sinsert x l ↔ a = x ∨ a ∈ l := by
  induction l with
  | nil => simp [sinsert]
  | cons y l ih =>
    by_cases h1 : x < y
    · simp [sinsert, h1]
    · by_cases h2 : x = y
      · subst h2
        simp only [sinsert, if_neg h1, if_pos rfl]
        constructor
        · exact fun h => Or.inr h
        · rintro (rfl | h)
          · exact List.mem_cons_self _ _
          · exact h
      · simp only [sinsert, if_neg h1, if_neg h2, List.mem_cons, ih]
        tauto

lemma alookup_aset_self {α : Type} (l : List (Nat × α)) (i : Nat) (v : α) :
    alookup (aset i v l) i = some v := by
  induction l with
  | nil => simp [aset, alookup]
  | cons e l ih =>
    by_cases h : e.1 = i
    · simp [aset, h, alookup]
    · simp only [aset, if_neg h]
      rw [alookup, List.find?]
      have : (e.1 == i) = false := by simp [h]
      rw [this]
      exact ih

lemma alookup_aset_ne {α : Type} (l : List (Nat × α)) (i j : Nat) (v : α) (h : j ≠ i) :
    alookup (aset i v l) j = alookup l j := by
  induction l with
  | nil =>
    simp only [aset, alookup, List.find?]
    have : (i == j) = false := by simp [Ne.symm h]
    simp [this]
  | cons e l ih =>
    by_cases he : e.1 = i
    · simp only [aset, if_pos he, alookup, List.find?]
      have h1 : (i == j) = false := by simp [Ne.symm h]
      have h2 : (e.1 == j) = false := by simp [he, Ne.symm h]
      rw [h1, h2]
    · simp only [aset, if_neg he, alookup, List.find?]
      rcases hc : (e.1 == j) with _ | _
      · exact ih
      · rfl

lemma dataOf_upd (g : CDG) (i : Nat) (f : CDNode → CDNode) (j : Nat) :
    (g.upd i f).dataOf j = if j = i then f (g.dataOf i) else g.dataOf j := by
  by_cases h : j = i
  · subst h
    simp [CDG.upd, CDG.dataOf, alookup_aset_self]
  · simp [CDG.upd, CDG.dataOf, alookup_aset_ne _ _ _ _ h, h]

lemma bbOf_upd (g : CDG) (i : Nat) (f : CDNode → CDNode) :
    (g.upd i f).bbOf = g.bbOf := rfl

lemma nodes_upd (g : CDG) (i : Nat) (f : CDNode → CDNode) :
    (g.upd i f).nodes = g.nodes := rfl

lemma nextId_upd (g : CDG) (i : Nat) (f : CDNode → CDNode) :
    (g.upd i f).nextId = g.nextId := rfl

lemma bbOf_addChild (t : EdgeType) (p c : Nat) (g : CDG) :
    (addChild t p c g).bbOf = g.bbOf := by
  cases t <;> rfl

lemma bbOf_addDep (t : EdgeType) (an cn : Nat) (g : CDG) :
    (addDep t an cn g).bbOf = g.bbOf := by
  rw [addDep, addParent, bbOf_upd, bbOf_addChild]

lemma parents_addChild (t : EdgeType) (p c : Nat) (g : CDG) (m : Nat) :
    ((addChild t p c g).dataOf m).Parents = (g.dataOf m).Parents := by
  cases t <;> simp only [addChild, addTrue, addFalse, addOther, dataOf_upd] <;>
    by_cases h : m = p <;> simp [h]

lemma childSet_addParent (t : EdgeType) (c p : Nat) (g : CDG) (m : Nat) :
    childSet t ((addParent c p g).dataOf m) = childSet t (g.dataOf m) := by
  rw [addParent, dataOf_upd]
  by_cases h : m = c
  · subst h
    cases t <;> simp [childSet]
  · simp [h]

lemma block_addChild (t : EdgeType) (p c : Nat) (g : CDG) (m : Nat) :
    ((addChild t p c g).dataOf m).block = (g.dataOf m).block := by
  cases t <;> simp only [addChild, addTrue, addFalse, addOther, dataOf_upd] <;>
    by_cases h : m = p <;> simp [h]

lemma block_addParent (c p : Nat) (g : CDG) (m : Nat) :
    ((addParent c p g).dataOf m).block = (g.dataOf m).block := by
  rw [addParent, dataOf_upd]
  by_cases h : m = c <;> simp [h]

lemma mem_childSet_addChild {x : Nat} {t2 : EdgeType} {m : Nat} (t : EdgeType)
    (p c : Nat) (g : CDG) (hx : x ∈ childSet t2 (g.dataOf m)) :
    x ∈ childSet t2 ((addChild t p c g).dataOf m) := by
  cases t <;> cases t2 <;>
    simp only [addChild, addTrue, addFalse, addOther, dataOf_upd, childSet] <;>
    by_cases h : m = p <;> simp [h, childSet, mem_sinsert] <;>
    first
      | exact Or.inr (by simpa [childSet, h] using hx)
      | simpa [childSet, h] using hx

lemma childSet_addChild_self (t : EdgeType) (p c : Nat) (g : CDG) :
    childSet t ((addChild t p c g).dataOf p) = sinsert c (childSet t (g.dataOf p)) := by
  cases t <;> simp [addChild, addTrue, addFalse, addOther, dataOf_upd, childSet]

lemma parents_addParent_self (c p : Nat) (g : CDG) :
    ((addParent c p g).dataOf c).Parents = sinsert p ((g.dataOf c).Parents) := by
  simp [addParent, dataOf_upd]

lemma parents_addParent {x : Nat} (c p : Nat) (g : CDG) (m : Nat) (hx : x ∈ (g.dataOf m).Parents) :
    x ∈ ((addParent c p g).dataOf m).Parents := by
  rw [addParent, dataOf_upd]
  by_cases h : m = c
  · subst h
    simpa [mem_sinsert] using Or.inr hx
  · simpa [h] using hx

lemma mem_childSet_addDep {x : Nat} {t2 : EdgeType} {m : Nat} (t : EdgeType)
    (an cn : Nat) (g : CDG) (hx : x ∈ childSet t2 (g.dataOf m)) :
    x ∈ childSet t2 ((addDep t an cn g).dataOf m) := by
  rw [addDep, childSet_addParent]
  exact mem_childSet_addChild t an cn g hx

lemma mem_parents_addDep {x m : Nat} (t : EdgeType) (an cn : Nat) (g : CDG)
    (hx : x ∈ (g.dataOf m).Parents) :
    x ∈ ((addDep t an cn g).dataOf m).Parents := by
  rw [addDep]
  exact parents_addParent cn an _ m (by rw [parents_addChild]; exact hx)

lemma addDep_establishes (t : EdgeType) (an cn : Nat) (g : CDG) :
    an ∈ ((addDep t an cn g).dataOf cn).Parents ∧
    cn ∈ childSet t ((addDep t an cn g).dataOf an) := by
  constructor
  · rw [addDep, parents_addParent_self]
    exact mem_sinsert.mpr (Or.inl rfl)
  · rw [addDep, childSet_addParent, childSet_addChild_self]
    exact mem_sinsert.mpr (Or.inl rfl)

lemma depStep_bbOf (t : EdgeType) (an : Nat) (h : CDG) (C : Nat) :
    (depStep t an h C).bbOf = h.bbOf := by
  rw [depStep]
  rcases hc : h.bbOf C with _ | cn
  · rfl
  · exact bbOf_addDep t an cn h

lemma depStep_mono_child {x : Nat} {t2 : EdgeType} {m : Nat} (t : EdgeType) (an : Nat)
    (h : CDG) (C : Nat) (hx : x ∈ childSet t2 (h.dataOf m)) :
    x ∈ childSet t2 ((depStep t an h C).dataOf m) := by
  rw [depStep]
  rcases hc : h.bbOf C with _ | cn
  · exact hx
  · exact mem_childSet_addDep t an cn h hx

lemma depStep_mono_parents {x m : Nat} (t : EdgeType) (an : Nat)
    (h : CDG) (C : Nat) (hx : x ∈ (h.dataOf m).Parents) :
    x ∈ ((depStep t an h C).dataOf m).Parents := by
  rw [depStep]
  rcases hc : h.bbOf C with _ | cn
  · exact hx
  · exact mem_parents_addDep t an cn h hx

lemma chainFold_mono_child {x : Nat} {t2 : EdgeType} {m : Nat} (t : EdgeType) (an : Nat) :
    ∀ (l : List Nat) (h : CDG), x ∈ childSet t2 (h.dataOf m) →
      x ∈ childSet t2 ((l.foldl (depStep t an) h).dataOf m) := by
  intro l
  induction l with
  | nil => exact fun h hx => hx
  | cons C l ih =>
    intro h hx
    exact ih (depStep t an h C) (depStep_mono_child t an h C hx)

lemma chainFold_mono_parents {x m : Nat} (t : EdgeType) (an : Nat) :
    ∀ (l : List Nat) (h : CDG), x ∈ (h.dataOf m).Parents →
      x ∈ ((l.foldl (depStep t an) h).dataOf m).Parents := by
  intro l
  induction l with
  | nil => exact fun h hx => hx
  | cons C l ih =>
    intro h hx
    exact ih (depStep t an h C) (depStep_mono_parents t an h C hx)

lemma chainFold_est (t : EdgeType) (an : Nat) :
    ∀ (l : List Nat) (h : CDG) (C : Nat), C ∈ l → ∀ cn, h.bbOf C = some cn →
      an ∈ ((l.foldl (depStep t an) h).dataOf cn).Parents ∧
      cn ∈ childSet t ((l.foldl (depStep t an) h).dataOf an) := by
  intro l
  induction l with
  | nil => intro h C hC; exact absurd hC (List.not_mem_nil C)
  | cons C0 l ih =>
    intro h C hC cn hcn
    rcases List.mem_cons.mp hC with rfl | hC2
    · have hstep : depStep t an h C = addDep t an cn h := by
        rw [depStep, hcn]
      rw [List.foldl_cons, hstep]
      obtain ⟨h1, h2⟩ := addDep_establishes t an cn h
      exact ⟨chainFold_mono_parents t an l _ h1, chainFold_mono_child t an l _ h2⟩
    · rw [List.foldl_cons]
      exact ih (depStep t an h C0) C hC2 cn (by rw [depStep_bbOf]; exact hcn)

lemma ancestors_cons (p : PDTL) (b : Nat) (hb : pdtLookup p b ≠ none) :
    ∃ rest, ancestors p b = b :: rest := by
  rw [ancestors, ancestorsGo]
  rcases hl : pdtLookup p b with _ | ⟨_ | q⟩
  · exact absurd hl hb
  · exact ⟨[], rfl⟩
  · exact ⟨ancestorsGo p p.length q, rfl⟩

lemma nca_mem_left {p : PDTL} {a b l : Nat} (h : nca p a b = some l) :
    l ∈ ancestors p a :=
  List.mem_of_find?_eq_some h

lemma nca_self_of_eq {p : PDTL} {a b : Nat} (hab : a = b) (h : nca p a b = some b) :
    nca p a b = some a := by
  subst hab
  exact h

/-- Claim C2: the per-edge behaviour of dependency computation.  Given
`A`'s node and a successor `B` that has a post-dominator-tree node:
(1) when `A ≠ B` and `B` post-dominates `A`, the edge records nothing;
(2) otherwise, for every block `C` on the tree chain from `B` up to but
excluding `L = nca(A, B)`, an edge of the computed type is added from
`A`'s node to `C`'s node and `A`'s node is added to `C`'s node's parents;
and moreover a dependence really is recorded: either `B` itself is on that
chain, or `A = B` and the self-dependence case `A == L` fires. -/
theorem processEdge_records_dependencies (cfg : CFG) (p : PDTL) (g : CDG) (A B an : Nat)
    (han : g.bbOf A = some an) (hB : pdtLookup p B ≠ none) :
    (¬ (A = B ∨ ¬ pdom p B A) → processEdge cfg p g A B = g) ∧
    ((A = B ∨ ¬ pdom p B A) →
      (∀ C ∈ chainTo p B (nca p A B), ∀ cn, g.bbOf C = some cn →
        an ∈ ((processEdge cfg p g A B).dataOf cn).Parents ∧
        cn ∈ childSet (edgeTypeUsed cfg A B) ((processEdge cfg p g A B).dataOf an)) ∧
      (B ∈ chainTo p B (nca p A B) ∨ (A = B ∧ nca p A B = some A))) := by
  constructor
  · intro hn
    rw [processEdge, if_neg hn]
  · intro hc
    have hpe : processEdge cfg p g A B =
        (chainTo p B (nca p A B)).foldl (depStep (edgeTypeUsed cfg A B) an)
          (if nca p A B = some A
           then addParent an an (addChild (edgeTypeUsed cfg A B) an an g)
           else g) := by
      rw [processEdge, if_pos hc, han]
    constructor
    · intro C hC cn hcn
      rw [hpe]
      refine chainFold_est (edgeTypeUsed cfg A B) an _ _ C hC cn ?_
      by_cases hL : nca p A B = some A
      · rw [if_pos hL, addParent, bbOf_upd, bbOf_addChild]
        exact hcn
      · rw [if_neg hL]
        exact hcn
    · obtain ⟨rest, hanc⟩ := ancestors_cons p B hB
      rcases hL : nca p A B with _ | l
      · left
        rw [chainTo, hanc]
        exact List.mem_cons_self _ _
      · by_cases hlB : l = B
        · subst hlB
          have hdom : pdom p l A := nca_mem_left hL
          have hab : A = l := by
            rcases hc with hab | hnd
            · exact hab
            · exact absurd hdom hnd
          exact Or.inr ⟨hab, by rw [hab]⟩
        · left
          rw [chainTo, hanc]
          have : (B != l) = true := by
            simp [bne_iff_ne]
            exact fun h => hlB h.symm
          simp only [List.takeWhile_cons, this]
          exact List.mem_cons_self _ _

/-- Witness for claim C2: the true-branch edge of the `if` diamond
(`0 -> 1`), processed on the freshly initialised graph: node 1 of block 0
gains node 2 of block 1 as a TRUE child, and is recorded as its parent. -/
theorem processEdge_records_dependencies_witness :
    (initGraph cfgIf).bbOf 0 = some 1 ∧ pdtLookup pdtIf 1 ≠ none ∧
    1 ∈ ((processEdge cfgIf pdtIf (initGraph cfgIf) 0 1).dataOf 2).Parents ∧
    2 ∈ childSet (edgeTypeUsed cfgIf 0 1)
      ((processEdge cfgIf pdtIf (initGraph cfgIf) 0 1).dataOf 1) := by
  have h := (((processEdge_records_dependencies cfgIf pdtIf (initGraph cfgIf) 0 1 1
    (by decide) (by decide)).2 (by decide)).1 1 (by decide) 2 (by decide))
  exact ⟨by decide, by decide, h.1, h.2⟩

/-! ## Claim C3: the binary-child invariant after repair -/

lemma dataOf_upd_ne (g : CDG) (i : Nat) (f : CDNode → CDNode) (m : Nat) (h : m ≠ i) :
    (g.upd i f).dataOf m = g.dataOf m := by
  rw [dataOf_upd, if_neg h]

lemma childSet_upd (t : EdgeType) (g : CDG) (i : Nat) (f : CDNode → CDNode)
    (hf : ∀ nd, childSet t (f nd) = childSet t nd) (m : Nat) :
    childSet t ((g.upd i f).dataOf m) = childSet t (g.dataOf m) := by
  rw [dataOf_upd]
  by_cases h : m = i
  · rw [if_pos h, hf, h]
  · rw [if_neg h]

lemma block_upd (g : CDG) (i : Nat) (f : CDNode → CDNode)
    (hf : ∀ nd, (f nd).block = nd.block) (m : Nat) :
    ((g.upd i f).dataOf m).block = (g.dataOf m).block := by
  rw [dataOf_upd]
  by_cases h : m = i
  · rw [if_pos h, hf, h]
  · rw [if_neg h]

lemma serase_foldl_filter :
    ∀ (l s : List Nat), l.foldl (fun s2 c => serase c s2) s =
      s.filter (fun y => !(l.contains y)) := by
  intro l
  induction l with
  | nil => intro s; simp
  | cons c l ih =>
    intro s
    rw [List.foldl_cons, ih, serase, List.filter_filter]
    refine List.filter_congr ?_
    intro y hy
    simp only [List.contains_cons, Bool.not_or, Bool.and_comm]
    by_cases hyc : y = c <;> simp [hyc, bne]

lemma serase_foldl_self (l : List Nat) :
    l.foldl (fun s2 c => serase c s2) l = [] := by
  rw [serase_foldl_filter]
  refine List.filter_eq_nil_iff.mpr ?_
  intro a ha
  simp [ha]

lemma trueCh_upd (g : CDG) (i : Nat) (f : CDNode → CDNode)
    (hf : ∀ nd, (f nd).TrueChildren = nd.TrueChildren) (m : Nat) :
    ((g.upd i f).dataOf m).TrueChildren = (g.dataOf m).TrueChildren := by
  rw [dataOf_upd]
  by_cases h : m = i
  · rw [if_pos h, hf, h]
  · rw [if_neg h]

lemma falseCh_upd (g : CDG) (i : Nat) (f : CDNode → CDNode)
    (hf : ∀ nd, (f nd).FalseChildren = nd.FalseChildren) (m : Nat) :
    ((g.upd i f).dataOf m).FalseChildren = (g.dataOf m).FalseChildren := by
  rw [dataOf_upd]
  by_cases h : m = i
  · rw [if_pos h, hf, h]
  · rw [if_neg h]

lemma trueCh_rpao (c n r : Nat) (h : CDG) (m : Nat) :
    ((removeParent c n (addParent c r (addOther r c h))).dataOf m).TrueChildren =
      (h.dataOf m).TrueChildren := by
  rw [removeParent, trueCh_upd, addParent, trueCh_upd, addOther, trueCh_upd]
  all_goals intro nd
  all_goals rfl

lemma falseCh_rpao (c n r : Nat) (h : CDG) (m : Nat) :
    ((removeParent c n (addParent c r (addOther r c h))).dataOf m).FalseChildren =
      (h.dataOf m).FalseChildren := by
  rw [removeParent, falseCh_upd, addParent, falseCh_upd, addOther, falseCh_upd]
  all_goals intro nd
  all_goals rfl

lemma block_rpao (c n r : Nat) (h : CDG) (m : Nat) :
    ((removeParent c n (addParent c r (addOther r c h))).dataOf m).block =
      (h.dataOf m).block := by
  rw [removeParent, block_upd, addParent, block_upd, addOther, block_upd]
  all_goals intro nd
  all_goals rfl

/-- `moveTrueChild` leaves every TRUE child set untouched except `n`'s,
from which it erases `c`. -/
lemma trueCh_moveTrueChild (n r : Nat) (h : CDG) (c m : Nat) :
    ((moveTrueChild n r h c).dataOf m).TrueChildren =
      if m = n then serase c ((h.dataOf m).TrueChildren)
      else (h.dataOf m).TrueChildren := by
  rw [moveTrueChild, removeTrue]
  by_cases hm : m = n
  · subst hm
    rw [dataOf_upd, if_pos rfl, if_pos rfl]
    show serase c (((removeParent c m (addParent c r (addOther r c h))).dataOf m).TrueChildren) = _
    rw [trueCh_rpao]
  · rw [dataOf_upd_ne _ _ _ _ hm, trueCh_rpao, if_neg hm]

/-- `moveTrueChild` never touches a FALSE child set. -/
lemma falseCh_moveTrueChild (n r : Nat) (h : CDG) (c m : Nat) :
    ((moveTrueChild n r h c).dataOf m).FalseChildren =
      (h.dataOf m).FalseChildren := by
  rw [moveTrueChild, removeTrue, falseCh_upd, falseCh_rpao]
  intro nd
  rfl

/-- `moveFalseChild` leaves every FALSE child set untouched except `n`'s,
from which it erases `c`. -/
lemma falseCh_moveFalseChild (n r : Nat) (h : CDG) (c m : Nat) :
    ((moveFalseChild n r h c).dataOf m).FalseChildren =
      if m = n then serase c ((h.dataOf m).FalseChildren)
      else (h.dataOf m).FalseChildren := by
  rw [moveFalseChild, removeFalse]
  by_cases hm : m = n
  · subst hm
    rw [dataOf_upd, if_pos rfl, if_pos rfl]
    show serase c (((removeParent c m (addParent c r (addOther r c h))).dataOf m).FalseChildren) = _
    rw [falseCh_rpao]
  · rw [dataOf_upd_ne _ _ _ _ hm, falseCh_rpao, if_neg hm]

/-- `moveFalseChild` never touches a TRUE child set. -/
lemma trueCh_moveFalseChild (n r : Nat) (h : CDG) (c m : Nat) :
    ((moveFalseChild n r h c).dataOf m).TrueChildren =
      (h.dataOf m).TrueChildren := by
  rw [moveFalseChild, removeFalse, trueCh_upd, trueCh_rpao]
  intro nd
  rfl

lemma block_moveTrueChild (n r : Nat) (h : CDG) (c m : Nat) :
    ((moveTrueChild n r h c).dataOf m).block = (h.dataOf m).block := by
  rw [moveTrueChild, removeTrue, block_upd, block_rpao]
  intro nd
  rfl

lemma block_moveFalseChild (n r : Nat) (h : CDG) (c m : Nat) :
    ((moveFalseChild n r h c).dataOf m).block = (h.dataOf m).block := by
  rw [moveFalseChild, removeFalse, block_upd, block_rpao]
  intro nd
  rfl

lemma skeleton_moveTrueChild (n r : Nat) (h : CDG) (c : Nat) :
    (moveTrueChild n r h c).nodes = h.nodes ∧
    (moveTrueChild n r h c).nextId = h.nextId := ⟨rfl, rfl⟩

lemma skeleton_moveFalseChild (n r : Nat) (h : CDG) (c : Nat) :
    (moveFalseChild n r h c).nodes = h.nodes ∧
    (moveFalseChild n r h c).nextId = h.nextId := ⟨rfl, rfl⟩

lemma dataOf_alloc (g : CDG) (j : Nat) :
    ((allocRegion g).1).dataOf j = if j = g.nextId then emptyNode else g.dataOf j := by
  by_cases h : j = g.nextId
  · simp [allocRegion, CDG.dataOf, h, alookup_aset_self]
  · simp [allocRegion, CDG.dataOf, alookup_aset_ne _ _ _ _ h, h]

lemma trueCh_moveTrueFold (n r : Nat) :
    ∀ (l : List Nat) (h : CDG),
      ((l.foldl (moveTrueChild n r) h).dataOf n).TrueChildren =
        l.foldl (fun s c => serase c s) ((h.dataOf n).TrueChildren) := by
  intro l
  induction l with
  | nil => intro h; rfl
  | cons c l ih =>
    intro h
    rw [List.foldl_cons, List.foldl_cons, ih, trueCh_moveTrueChild, if_pos rfl]

lemma trueCh_moveTrueFold_ne (n r m : Nat) (hm : m ≠ n) :
    ∀ (l : List Nat) (h : CDG),
      ((l.foldl (moveTrueChild n r) h).dataOf m).TrueChildren =
        (h.dataOf m).TrueChildren := by
  intro l
  induction l with
  | nil => intro h; rfl
  | cons c l ih =>
    intro h
    rw [List.foldl_cons, ih, trueCh_moveTrueChild, if_neg hm]

lemma falseCh_moveTrueFold (n r m : Nat) :
    ∀ (l : List Nat) (h : CDG),
      ((l.foldl (moveTrueChild n r) h).dataOf m).FalseChildren =
        (h.dataOf m).FalseChildren := by
  intro l
  induction l with
  | nil => intro h; rfl
  | cons c l ih =>
    intro h
    rw [List.foldl_cons, ih, falseCh_moveTrueChild]

lemma block_moveTrueFold (n r m : Nat) :
    ∀ (l : List Nat) (h : CDG),
      ((l.foldl (moveTrueChild n r) h).dataOf m).block = (h.dataOf m).block := by
  intro l
  induction l with
  | nil => intro h; rfl
  | cons c l ih =>
    intro h
    rw [List.foldl_cons, ih, block_moveTrueChild]

lemma skeleton_moveTrueFold (n r : Nat) :
    ∀ (l : List Nat) (h : CDG),
      (l.foldl (moveTrueChild n r) h).nodes = h.nodes ∧
      (l.foldl (moveTrueChild n r) h).nextId = h.nextId := by
  intro l
  induction l with
  | nil => intro h; exact ⟨rfl, rfl⟩
  | cons c l ih =>
    intro h
    rw [List.foldl_cons]
    exact ih (moveTrueChild n r h c)

lemma falseCh_moveFalseFold (n r : Nat) :
    ∀ (l : List Nat) (h : CDG),
      ((l.foldl (moveFalseChild n r) h).dataOf n).FalseChildren =
        l.foldl (fun s c => serase c s) ((h.dataOf n).FalseChildren) := by
  intro l
  induction l with
  | nil => intro h; rfl
  | cons c l ih =>
    intro h
    rw [List.foldl_cons, List.foldl_cons, ih, falseCh_moveFalseChild, if_pos rfl]

lemma falseCh_moveFalseFold_ne (n r m : Nat) (hm : m ≠ n) :
    ∀ (l : List Nat) (h : CDG),
      ((l.foldl (moveFalseChild n r) h).dataOf m).FalseChildren =
        (h.dataOf m).FalseChildren := by
  intro l
  induction l with
  | nil => intro h; rfl
  | cons c l ih =>
    intro h
    rw [List.foldl_cons, ih, falseCh_moveFalseChild, if_neg hm]

lemma trueCh_moveFalseFold (n r m : Nat) :
    ∀ (l : List Nat) (h : CDG),
      ((l.foldl (moveFalseChild n r) h).dataOf m).TrueChildren =
        (h.dataOf m).TrueChildren := by
  intro l
  induction l with
  | nil => intro h; rfl
  | cons c l ih =>
    intro h
    rw [List.foldl_cons, ih, trueCh_moveFalseChild]

lemma block_moveFalseFold (n r m : Nat) :
    ∀ (l : List Nat) (h : CDG),
      ((l.foldl (moveFalseChild n r) h).dataOf m).block = (h.dataOf m).block := by
  intro l
  induction l with
  | nil => intro h; rfl
  | cons c l ih =>
    intro h
    rw [List.foldl_cons, ih, block_moveFalseChild]

lemma skeleton_moveFalseFold (n r : Nat) :
    ∀ (l : List Nat) (h : CDG),
      (l.foldl (moveFalseChild n r) h).nodes = h.nodes ∧
      (l.foldl (moveFalseChild n r) h).nextId = h.nextId := by
  intro l
  induction l with
  | nil => intro h; exact ⟨rfl, rfl⟩
  | cons c l ih =>
    intro h
    rw [List.foldl_cons]
    exact ih (moveFalseChild n r h c)

lemma trueCh_addTrue_self (p c : Nat) (g : CDG) :
    ((addTrue p c g).dataOf p).TrueChildren = sinsert c ((g.dataOf p).TrueChildren) := by
  rw [addTrue, dataOf_upd, if_pos rfl]

lemma trueCh_addTrue_ne (p c : Nat) (g : CDG) (m : Nat) (hm : m ≠ p) :
    ((addTrue p c g).dataOf m).TrueChildren = ((g.dataOf m).TrueChildren) := by
  rw [addTrue, dataOf_upd_ne _ _ _ _ hm]

lemma falseCh_addTrue (p c : Nat) (g : CDG) (m : Nat) :
    ((addTrue p c g).dataOf m).FalseChildren = ((g.dataOf m).FalseChildren) := by
  rw [addTrue, falseCh_upd]
  intro nd
  rfl

lemma block_addTrue (p c : Nat) (g : CDG) (m : Nat) :
    ((addTrue p c g).dataOf m).block = ((g.dataOf m).block) := by
  rw [addTrue, block_upd]
  intro nd
  rfl

lemma falseCh_addFalse_self (p c : Nat) (g : CDG) :
    ((addFalse p c g).dataOf p).FalseChildren = sinsert c ((g.dataOf p).FalseChildren) := by
  rw [addFalse, dataOf_upd, if_pos rfl]

lemma falseCh_addFalse_ne (p c : Nat) (g : CDG) (m : Nat) (hm : m ≠ p) :
    ((addFalse p c g).dataOf m).FalseChildren = ((g.dataOf m).FalseChildren) := by
  rw [addFalse, dataOf_upd_ne _ _ _ _ hm]

lemma trueCh_addFalse (p c : Nat) (g : CDG) (m : Nat) :
    ((addFalse p c g).dataOf m).TrueChildren = ((g.dataOf m).TrueChildren) := by
  rw [addFalse, trueCh_upd]
  intro nd
  rfl

lemma block_addFalse (p c : Nat) (g : CDG) (m : Nat) :
    ((addFalse p c g).dataOf m).block = ((g.dataOf m).block) := by
  rw [addFalse, block_upd]
  intro nd
  rfl

lemma repairTrue_fired (g : CDG) (n : Nat)
    (hf : 1 < ((g.dataOf n).TrueChildren).length) :
    repairTrue g n = addTrue n g.nextId
      (((((allocRegion g).1).dataOf n).TrueChildren).foldl
        (moveTrueChild n g.nextId) (allocRegion g).1) := by
  rw [repairTrue, if_pos hf]
  exact rfl

lemma repairFalse_fired (g : CDG) (n : Nat)
    (hf : 1 < ((g.dataOf n).FalseChildren).length) :
    repairFalse g n = addFalse n g.nextId
      (((((allocRegion g).1).dataOf n).FalseChildren).foldl
        (moveFalseChild n g.nextId) (allocRegion g).1) := by
  rw [repairFalse, if_pos hf]
  exact rfl

lemma repairTrue_trueCh_self (g : CDG) (n : Nat) :
    (((repairTrue g n).dataOf n).TrueChildren).length ≤ 1 := by
  by_cases hf : 1 < ((g.dataOf n).TrueChildren).length
  · rw [repairTrue_fired g n hf, trueCh_addTrue_self, trueCh_moveTrueFold,
      serase_foldl_self]
    simp [sinsert]
  · rw [repairTrue, if_neg hf]
    omega

lemma repairFalse_falseCh_self (g : CDG) (n : Nat) :
    (((repairFalse g n).dataOf n).FalseChildren).length ≤ 1 := by
  by_cases hf : 1 < ((g.dataOf n).FalseChildren).length
  · rw [repairFalse_fired g n hf, falseCh_addFalse_self, falseCh_moveFalseFold,
      serase_foldl_self]
    simp [sinsert]
  · rw [repairFalse, if_neg hf]
    omega

lemma repairTrue_falseCh (g : CDG) (n m : Nat) (hm : m ≠ g.nextId) :
    ((repairTrue g n).dataOf m).FalseChildren = (g.dataOf m).FalseChildren := by
  by_cases hf : 1 < ((g.dataOf n).TrueChildren).length
  · rw [repairTrue_fired g n hf, falseCh_addTrue, falseCh_moveTrueFold,
      dataOf_alloc, if_neg hm]
  · rw [repairTrue, if_neg hf]

lemma repairFalse_trueCh (g : CDG) (n m : Nat) (hm : m ≠ g.nextId) :
    ((repairFalse g n).dataOf m).TrueChildren = (g.dataOf m).TrueChildren := by
  by_cases hf : 1 < ((g.dataOf n).FalseChildren).length
  · rw [repairFalse_fired g n hf, trueCh_addFalse, trueCh_moveFalseFold,
      dataOf_alloc, if_neg hm]
  · rw [repairFalse, if_neg hf]

lemma repairTrue_trueCh_ne (g : CDG) (n m : Nat) (hn : m ≠ n) (hm : m ≠ g.nextId) :
    ((repairTrue g n).dataOf m).TrueChildren = (g.dataOf m).TrueChildren := by
  by_cases hf : 1 < ((g.dataOf n).TrueChildren).length
  · rw [repairTrue_fired g n hf, trueCh_addTrue_ne _ _ _ _ hn,
      trueCh_moveTrueFold_ne _ _ _ hn, dataOf_alloc, if_neg hm]
  · rw [repairTrue, if_neg hf]

lemma repairFalse_falseCh_ne (g : CDG) (n m : Nat) (hn : m ≠ n) (hm : m ≠ g.nextId) :
    ((repairFalse g n).dataOf m).FalseChildren = (g.dataOf m).FalseChildren := by
  by_cases hf : 1 < ((g.dataOf n).FalseChildren).length
  · rw [repairFalse_fired g n hf, falseCh_addFalse_ne _ _ _ _ hn,
      falseCh_moveFalseFold_ne _ _ _ hn, dataOf_alloc, if_neg hm]
  · rw [repairFalse, if_neg hf]

lemma repairTrue_block (g : CDG) (n m : Nat) (hm : m ≠ g.nextId) :
    ((repairTrue g n).dataOf m).block = (g.dataOf m).block := by
  by_cases hf : 1 < ((g.dataOf n).TrueChildren).length
  · rw [repairTrue_fired g n hf, block_addTrue, block_moveTrueFold,
      dataOf_alloc, if_neg hm]
  · rw [repairTrue, if_neg hf]

lemma repairFalse_block (g : CDG) (n m : Nat) (hm : m ≠ g.nextId) :
    ((repairFalse g n).dataOf m).block = (g.dataOf m).block := by
  by_cases hf : 1 < ((g.dataOf n).FalseChildren).length
  · rw [repairFalse_fired g n hf, block_addFalse, block_moveFalseFold,
      dataOf_alloc, if_neg hm]
  · rw [repairFalse, if_neg hf]

lemma repairTrue_block_any (g : CDG) (n m : Nat) :
    ((repairTrue g n).dataOf m).block = (g.dataOf m).block ∨
    ((repairTrue g n).dataOf m).block = none := by
  by_cases hm : m = g.nextId
  · by_cases hf : 1 < ((g.dataOf n).TrueChildren).length
    · subst hm
      right
      rw [repairTrue_fired g n hf, block_addTrue, block_moveTrueFold,
        dataOf_alloc, if_pos rfl]
      rfl
    · left
      rw [repairTrue, if_neg hf]
  · exact Or.inl (repairTrue_block g n m hm)

lemma repairFalse_block_any (g : CDG) (n m : Nat) :
    ((repairFalse g n).dataOf m).block = (g.dataOf m).block ∨
    ((repairFalse g n).dataOf m).block = none := by
  by_cases hm : m = g.nextId
  · by_cases hf : 1 < ((g.dataOf n).FalseChildren).length
    · subst hm
      right
      rw [repairFalse_fired g n hf, block_addFalse, block_moveFalseFold,
        dataOf_alloc, if_pos rfl]
      rfl
    · left
      rw [repairFalse, if_neg hf]
  · exact Or.inl (repairFalse_block g n m hm)

lemma repairTrue_skeleton (g : CDG) (n : Nat) :
    g.nextId ≤ (repairTrue g n).nextId ∧
    (∀ m, m ∈ g.nodes → m ∈ (repairTrue g n).nodes) ∧
    (∀ m, m ∈ (repairTrue g n).nodes → m ∈ g.nodes ∨ m = g.nextId) := by
  by_cases hf : 1 < ((g.dataOf n).TrueChildren).length
  · rw [repairTrue_fired g n hf, addTrue]
    have hsk := skeleton_moveTrueFold n g.nextId
      (((allocRegion g).1.dataOf n).TrueChildren) (allocRegion g).1
    constructor
    · rw [nextId_upd, hsk.2]
      exact Nat.le_succ _
    constructor
    · intro m hm
      rw [nodes_upd, hsk.1]
      exact mem_sinsert.mpr (Or.inr hm)
    · intro m hm
      rw [nodes_upd, hsk.1] at hm
      rcases mem_sinsert.mp hm with rfl | hm2
      · exact Or.inr rfl
      · exact Or.inl hm2
  · rw [repairTrue, if_neg hf]
    exact ⟨Nat.le_refl _, fun m hm => hm, fun m hm => Or.inl hm⟩

lemma repairFalse_skeleton (g : CDG) (n : Nat) :
    g.nextId ≤ (repairFalse g n).nextId ∧
    (∀ m, m ∈ g.nodes → m ∈ (repairFalse g n).nodes) ∧
    (∀ m, m ∈ (repairFalse g n).nodes → m ∈ g.nodes ∨ m = g.nextId) := by
  by_cases hf : 1 < ((g.dataOf n).FalseChildren).length
  · rw [repairFalse_fired g n hf, addFalse]
    have hsk := skeleton_moveFalseFold n g.nextId
      (((allocRegion g).1.dataOf n).FalseChildren) (allocRegion g).1
    constructor
    · rw [nextId_upd, hsk.2]
      exact Nat.le_succ _
    constructor
    · intro m hm
      rw [nodes_upd, hsk.1]
      exact mem_sinsert.mpr (Or.inr hm)
    · intro m hm
      rw [nodes_upd, hsk.1] at hm
      rcases mem_sinsert.mp hm with rfl | hm2
      · exact Or.inr rfl
      · exact Or.inl hm2
  · rw [repairFalse, if_neg hf]
    exact ⟨Nat.le_refl _, fun m hm => hm, fun m hm => Or.inl hm⟩

lemma repairTrue_wfIds (g : CDG) (n : Nat) (hwf : wfIds g) : wfIds (repairTrue g n) := by
  by_cases hf : 1 < ((g.dataOf n).TrueChildren).length
  · intro m hm
    rw [repairTrue_fired g n hf, addTrue] at hm ⊢
    have hsk := skeleton_moveTrueFold n g.nextId
      (((allocRegion g).1.dataOf n).TrueChildren) (allocRegion g).1
    rw [nodes_upd, hsk.1] at hm
    rw [nextId_upd, hsk.2]
    show m < g.nextId + 1
    rcases mem_sinsert.mp hm with rfl | hm2
    · exact Nat.lt_succ_self _
    · exact Nat.lt_succ_of_lt (hwf m hm2)
  · rw [repairTrue, if_neg hf]
    exact hwf

lemma repairFalse_wfIds (g : CDG) (n : Nat) (hwf : wfIds g) : wfIds (repairFalse g n) := by
  by_cases hf : 1 < ((g.dataOf n).FalseChildren).length
  · intro m hm
    rw [repairFalse_fired g n hf, addFalse] at hm ⊢
    have hsk := skeleton_moveFalseFold n g.nextId
      (((allocRegion g).1.dataOf n).FalseChildren) (allocRegion g).1
    rw [nodes_upd, hsk.1] at hm
    rw [nextId_upd, hsk.2]
    show m < g.nextId + 1
    rcases mem_sinsert.mp hm with rfl | hm2
    · exact Nat.lt_succ_self _
    · exact Nat.lt_succ_of_lt (hwf m hm2)
  · rw [repairFalse, if_neg hf]
    exact hwf

lemma repairTrue_new_block (g : CDG) (n m : Nat) (hm : m ∈ (repairTrue g n).nodes)
    (hnot : m ∉ g.nodes) : ((repairTrue g n).dataOf m).block = none := by
  by_cases hf : 1 < ((g.dataOf n).TrueChildren).length
  · have hmn : m = g.nextId := by
      rcases (repairTrue_skeleton g n).2.2 m hm with h1 | h1
      · exact absurd h1 hnot
      · exact h1
    subst hmn
    rw [repairTrue_fired g n hf, block_addTrue, block_moveTrueFold, dataOf_alloc, if_pos rfl]
    rfl
  · rw [repairTrue, if_neg hf] at hm ⊢
    exact absurd hm hnot

lemma repairFalse_new_block (g : CDG) (n m : Nat) (hm : m ∈ (repairFalse g n).nodes)
    (hnot : m ∉ g.nodes) : ((repairFalse g n).dataOf m).block = none := by
  by_cases hf : 1 < ((g.dataOf n).FalseChildren).length
  · have hmn : m = g.nextId := by
      rcases (repairFalse_skeleton g n).2.2 m hm with h1 | h1
      · exact absurd h1 hnot
      · exact h1
    subst hmn
    rw [repairFalse_fired g n hf, block_addFalse, block_moveFalseFold, dataOf_alloc, if_pos rfl]
    rfl
  · rw [repairFalse, if_neg hf] at hm ⊢
    exact absurd hm hnot

lemma repairNode_self (g : CDG) (n : Nat) (hnext : n < g.nextId)
    (hb : (g.dataOf n).block ≠ none) :
    (((repairNode g n).dataOf n).TrueChildren).length ≤ 1 ∧
    (((repairNode g n).dataOf n).FalseChildren).length ≤ 1 := by
  rw [repairNode, if_neg hb]
  constructor
  · rw [repairFalse_trueCh _ _ _ ?_]
    · exact repairTrue_trueCh_self g n
    · have := (repairTrue_skeleton g n).1
      omega
  · exact repairFalse_falseCh_self _ n

lemma repairNode_pres (g : CDG) (n m : Nat) (hm : m ≠ n) (hlt : m < g.nextId) :
    ((repairNode g n).dataOf m).TrueChildren = (g.dataOf m).TrueChildren ∧
    ((repairNode g n).dataOf m).FalseChildren = (g.dataOf m).FalseChildren := by
  rw [repairNode]
  by_cases hb : (g.dataOf n).block = none
  · rw [if_pos hb]
    exact ⟨rfl, rfl⟩
  · rw [if_neg hb]
    have h1 : g.nextId ≤ (repairTrue g n).nextId := (repairTrue_skeleton g n).1
    constructor
    · rw [repairFalse_trueCh _ _ _ (by omega), repairTrue_trueCh_ne _ _ _ hm (by omega)]
    · rw [repairFalse_falseCh_ne _ _ _ hm (by omega), repairTrue_falseCh _ _ _ (by omega)]

lemma repairNode_block_pres (g : CDG) (n m : Nat) (hlt : m < g.nextId) :
    ((repairNode g n).dataOf m).block = (g.dataOf m).block := by
  rw [repairNode]
  by_cases hb : (g.dataOf n).block = none
  · rw [if_pos hb]
  · rw [if_neg hb]
    have h1 : g.nextId ≤ (repairTrue g n).nextId := (repairTrue_skeleton g n).1
    rw [repairFalse_block _ _ _ (by omega), repairTrue_block _ _ _ (by omega)]

lemma repairNode_skeleton (g : CDG) (n : Nat) :
    g.nextId ≤ (repairNode g n).nextId ∧
    (∀ m, m ∈ g.nodes → m ∈ (repairNode g n).nodes) := by
  rw [repairNode]
  by_cases hb : (g.dataOf n).block = none
  · rw [if_pos hb]
    exact ⟨Nat.le_refl _, fun m hm => hm⟩
  · rw [if_neg hb]
    have h1 := repairTrue_skeleton g n
    have h2 := repairFalse_skeleton (repairTrue g n) n
    exact ⟨Nat.le_trans h1.1 h2.1, fun m hm => h2.2.1 m (h1.2.1 m hm)⟩

lemma repairNode_wfIds (g : CDG) (n : Nat) (hwf : wfIds g) : wfIds (repairNode g n) := by
  rw [repairNode]
  by_cases hb : (g.dataOf n).block = none
  · rw [if_pos hb]
    exact hwf
  · rw [if_neg hb]
    exact repairFalse_wfIds _ n (repairTrue_wfIds g n hwf)

lemma repairNode_new_block (g : CDG) (n : Nat) (hwf : wfIds g) :
    ∀ m, m ∈ (repairNode g n).nodes → m ∉ g.nodes →
      ((repairNode g n).dataOf m).block = none := by
  rw [repairNode]
  by_cases hb : (g.dataOf n).block = none
  · rw [if_pos hb]
    intro m hm hnot
    exact absurd hm hnot
  · rw [if_neg hb]
    intro m hm hnot
    by_cases hrt : m ∈ (repairTrue g n).nodes
    · have hn1 : ((repairTrue g n).dataOf m).block = none :=
        repairTrue_new_block g n m hrt hnot
      have hlt : m < (repairTrue g n).nextId := repairTrue_wfIds g n hwf m hrt
      rw [repairFalse_block _ _ _ (by omega)]
      exact hn1
    · exact repairFalse_new_block _ n m hm hrt

lemma repairFold_basic :
    ∀ (L : List Nat) (h : CDG), wfIds h →
      wfIds (L.foldl repairNode h) ∧
      (∀ m, m ∈ h.nodes → m ∈ (L.foldl repairNode h).nodes) ∧
      (∀ m, m ∈ h.nodes → ((L.foldl repairNode h).dataOf m).block = (h.dataOf m).block) ∧
      (∀ m, m ∈ (L.foldl repairNode h).nodes → m ∉ h.nodes →
        ((L.foldl repairNode h).dataOf m).block = none) := by
  intro L
  induction L with
  | nil =>
    intro h hwf
    exact ⟨hwf, fun m hm => hm, fun m hm => rfl, fun m hm hnot => absurd hm hnot⟩
  | cons n L ih =>
    intro h hwf
    rw [List.foldl_cons]
    obtain ⟨iwf, imono, iblock, inew⟩ := ih (repairNode h n) (repairNode_wfIds h n hwf)
    refine ⟨iwf, ?_, ?_, ?_⟩
    · intro m hm
      exact imono m ((repairNode_skeleton h n).2 m hm)
    · intro m hm
      rw [iblock m ((repairNode_skeleton h n).2 m hm),
        repairNode_block_pres h n m (hwf m hm)]
    · intro m hm hnot
      by_cases hrn : m ∈ (repairNode h n).nodes
      · rw [iblock m hrn]
        exact repairNode_new_block h n hwf m hrn hnot
      · exact inew m hm hrn

lemma repairFold_keep :
    ∀ (L : List Nat) (h : CDG) (n : Nat), wfIds h → n ∈ h.nodes →
      (((h.dataOf n).TrueChildren).length ≤ 1) →
      (((h.dataOf n).FalseChildren).length ≤ 1) →
      ((((L.foldl repairNode h).dataOf n).TrueChildren).length ≤ 1 ∧
       (((L.foldl repairNode h).dataOf n).FalseChildren).length ≤ 1) := by
  intro L
  induction L with
  | nil => exact fun h n _ _ h1 h2 => ⟨h1, h2⟩
  | cons m0 L ih =>
    intro h n hwf hn h1 h2
    rw [List.foldl_cons]
    have hwf2 := repairNode_wfIds h m0 hwf
    have hn2 := (repairNode_skeleton h m0).2 n hn
    by_cases heq : n = m0
    · subst heq
      by_cases hb : (h.dataOf n).block = none
      · have hid : repairNode h n = h := by rw [repairNode, if_pos hb]
        rw [hid]
        exact ih h n hwf hn h1 h2
      · obtain ⟨k1, k2⟩ := repairNode_self h n (hwf n hn) hb
        exact ih _ n hwf2 hn2 k1 k2
    · obtain ⟨k1, k2⟩ := repairNode_pres h m0 n heq (hwf n hn)
      exact ih _ n hwf2 hn2 (by rw [k1]; exact h1) (by rw [k2]; exact h2)

lemma repairFold_fixes :
    ∀ (L : List Nat) (h : CDG) (n : Nat), wfIds h → n ∈ h.nodes → n ∈ L →
      (((L.foldl repairNode h).dataOf n).block ≠ none) →
      ((((L.foldl repairNode h).dataOf n).TrueChildren).length ≤ 1 ∧
       (((L.foldl repairNode h).dataOf n).FalseChildren).length ≤ 1) := by
  intro L
  induction L with
  | nil => intro h n _ _ hL; exact absurd hL (List.not_mem_nil n)
  | cons m0 L ih =>
    intro h n hwf hn hL hb
    rw [List.foldl_cons] at hb ⊢
    have hwf2 := repairNode_wfIds h m0 hwf
    have hn2 := (repairNode_skeleton h m0).2 n hn
    by_cases heq : n = m0
    · subst heq
      by_cases hbn : (h.dataOf n).block = none
      · exfalso
        have hid : repairNode h n = h := by rw [repairNode, if_pos hbn]
        rw [hid] at hb
        have := (repairFold_basic L h hwf).2.2.1 n hn
        rw [this] at hb
        exact hb hbn
      · obtain ⟨k1, k2⟩ := repairNode_self h n (hwf n hn) hbn
        exact repairFold_keep L _ n hwf2 hn2 k1 k2
    · rcases List.mem_cons.mp hL with h0 | hL2
      · exact absurd h0 heq
      · exact ih _ n hwf2 hn2 hL2 hb

lemma foldl_skeleton {β : Type} (f : CDG → β → CDG)
    (hf : ∀ g b, (f g b).nodes = g.nodes ∧ (f g b).nextId = g.nextId) :
    ∀ (l : List β) (g : CDG),
      (l.foldl f g).nodes = g.nodes ∧ (l.foldl f g).nextId = g.nextId := by
  intro l
  induction l with
  | nil => exact fun g => ⟨rfl, rfl⟩
  | cons b l ih =>
    intro g
    rw [List.foldl_cons]
    obtain ⟨h1, h2⟩ := ih (f g b)
    obtain ⟨h3, h4⟩ := hf g b
    exact ⟨h1.trans h3, h2.trans h4⟩

lemma skeleton_addChild (t : EdgeType) (p c : Nat) (g : CDG) :
    (addChild t p c g).nodes = g.nodes ∧ (addChild t p c g).nextId = g.nextId := by
  cases t <;> exact ⟨rfl, rfl⟩

lemma skeleton_removeChild (t : EdgeType) (p c : Nat) (g : CDG) :
    (removeChild t p c g).nodes = g.nodes ∧ (removeChild t p c g).nextId = g.nextId := by
  cases t <;> exact ⟨rfl, rfl⟩

lemma skeleton_addDep (t : EdgeType) (an cn : Nat) (g : CDG) :
    (addDep t an cn g).nodes = g.nodes ∧ (addDep t an cn g).nextId = g.nextId := by
  rw [addDep, addParent, nodes_upd, nextId_upd]
  exact skeleton_addChild t an cn g

lemma skeleton_depStep (t : EdgeType) (an : Nat) (h : CDG) (C : Nat) :
    (depStep t an h C).nodes = h.nodes ∧ (depStep t an h C).nextId = h.nextId := by
  rw [depStep]
  rcases hc : h.bbOf C with _ | cn
  · exact ⟨rfl, rfl⟩
  · exact skeleton_addDep t an cn h

lemma skeleton_processEdge (cfg : CFG) (p : PDTL) (g : CDG) (A B : Nat) :
    (processEdge cfg p g A B).nodes = g.nodes ∧
    (processEdge cfg p g A B).nextId = g.nextId := by
  rw [processEdge]
  by_cases hc : A = B ∨ ¬ pdom p B A
  · rw [if_pos hc]
    rcases han : g.bbOf A with _ | an
    · exact ⟨rfl, rfl⟩
    · show ((chainTo p B (nca p A B)).foldl (depStep (edgeTypeUsed cfg A B) an) _).nodes = _ ∧ _
      obtain ⟨h1, h2⟩ := foldl_skeleton _ (skeleton_depStep (edgeTypeUsed cfg A B) an)
        (chainTo p B (nca p A B))
        (if nca p A B = some A
         then addParent an an (addChild (edgeTypeUsed cfg A B) an an g) else g)
      rw [h1, h2]
      by_cases hL : nca p A B = some A
      · rw [if_pos hL, addParent, nodes_upd, nextId_upd]
        exact skeleton_addChild _ an an g
      · rw [if_neg hL]
        exact ⟨rfl, rfl⟩
  · rw [if_neg hc]
    exact ⟨rfl, rfl⟩

lemma skeleton_depsLoop (cfg : CFG) (p : PDTL) (g : CDG) :
    (depsLoop cfg p g).nodes = g.nodes ∧ (depsLoop cfg p g).nextId = g.nextId := by
  rw [depsLoop]
  exact foldl_skeleton _
    (fun h A => foldl_skeleton _ (fun h2 B => skeleton_processEdge cfg p h2 A B)
      (succs cfg A) h)
    cfg.blocks g

lemma skeleton_entryWire (cfg : CFG) (p : PDTL) (g : CDG) :
    (entryWire cfg p g).nodes = g.nodes ∧ (entryWire cfg p g).nextId = g.nextId := by
  rw [entryWire]
  rcases cfg.blocks with _ | ⟨entry, rest⟩
  · exact ⟨rfl, rfl⟩
  · refine foldl_skeleton _ ?_ (ancestors p entry) g
    intro h C
    rcases hc : h.bbOf C with _ | cn
    · exact ⟨rfl, rfl⟩
    · exact ⟨rfl, rfl⟩

lemma wfIds_of_skeleton (h g : CDG) (hn : h.nodes = g.nodes) (hi : h.nextId = g.nextId)
    (hwf : wfIds g) : wfIds h := by
  intro m hm
  rw [hn] at hm
  rw [hi]
  exact hwf m hm

lemma wfIds_addBlockNode (g : CDG) (b : Nat) (hwf : wfIds g) : wfIds (addBlockNode g b) := by
  intro m hm
  rw [addBlockNode] at hm ⊢
  show m < g.nextId + 1
  rcases mem_sinsert.mp hm with rfl | hm2
  · exact Nat.lt_succ_self _
  · exact Nat.lt_succ_of_lt (hwf m hm2)

lemma wfIds_initGraph (cfg : CFG) : wfIds (initGraph cfg) := by
  rw [initGraph]
  have : ∀ (l : List Nat) (g : CDG), wfIds g → wfIds (l.foldl addBlockNode g) := by
    intro l
    induction l with
    | nil => exact fun g hwf => hwf
    | cons b l ih =>
      intro g hwf
      rw [List.foldl_cons]
      exact ih _ (wfIds_addBlockNode g b hwf)
  refine this cfg.blocks _ ?_
  intro m hm
  rcases List.mem_singleton.mp hm with rfl
  exact Nat.lt_succ_self 0

lemma wfIds_computeDependencies (cfg : CFG) (p : PDTL) :
    wfIds (computeDependencies cfg p) := by
  rw [computeDependencies]
  have h1 := skeleton_depsLoop cfg p (initGraph cfg)
  have h2 := skeleton_entryWire cfg p (depsLoop cfg p (initGraph cfg))
  exact wfIds_of_skeleton _ _ (h2.1.trans h1.1) (h2.2.trans h1.2) (wfIds_initGraph cfg)

lemma wfIds_alloc (g : CDG) (hwf : wfIds g) : wfIds (allocRegion g).1 := by
  intro m hm
  rw [allocRegion] at hm ⊢
  show m < g.nextId + 1
  rcases mem_sinsert.mp hm with rfl | hm2
  · exact Nat.lt_succ_self _
  · exact Nat.lt_succ_of_lt (hwf m hm2)

lemma skeleton_attachRegion (region : Nat) (g : CDG) (cds : List Nat) :
    (attachRegion region g cds).nodes = g.nodes ∧
    (attachRegion region g cds).nextId = g.nextId := by
  rw [attachRegion]
  refine foldl_skeleton _ ?_ cds g
  intro h c
  rw [addParent, nodes_upd, nextId_upd]
  exact skeleton_addChild _ _ _ h

lemma skeleton_rewireNode (region n : Nat) (cds : List Nat) (g : CDG) :
    (rewireNode region n cds g).nodes = g.nodes ∧
    (rewireNode region n cds g).nextId = g.nextId := by
  rw [rewireNode]
  refine foldl_skeleton _ ?_ cds g
  intro h c
  rw [removeParent, nodes_upd, nextId_upd, addParent, nodes_upd, nextId_upd,
    addOther, nodes_upd, nextId_upd]
  exact skeleton_removeChild _ _ _ h

lemma wfIds_regionStep (st : CDG × CDMap) (b : Nat) (hwf : wfIds st.1) :
    wfIds (regionStep st b).1 := by
  rcases hb : st.1.bbOf b with _ | n
  · simp only [regionStep, hb]
    exact hwf
  · rcases hl : cdLookup st.2 (signatureOf st.1 n) with _ | region
    · simp only [regionStep, hb, hl]
      have hwa := wfIds_alloc st.1 hwf
      have h1 := skeleton_attachRegion (allocRegion st.1).2 (allocRegion st.1).1
        (signatureOf st.1 n)
      have h2 := skeleton_rewireNode (allocRegion st.1).2 n (signatureOf st.1 n)
        (attachRegion (allocRegion st.1).2 (allocRegion st.1).1 (signatureOf st.1 n))
      exact wfIds_of_skeleton _ _ (h2.1.trans h1.1) (h2.2.trans h1.2) hwa
    · simp only [regionStep, hb, hl]
      have h2 := skeleton_rewireNode region n (signatureOf st.1 n) st.1
      exact wfIds_of_skeleton _ _ h2.1 h2.2 hwf

lemma wfIds_regionMainLoop (p : PDTL) (g : CDG) (hwf : wfIds g) :
    wfIds (regionMainLoop p g) := by
  rw [regionMainLoop]
  have : ∀ (l : List Nat) (st : CDG × CDMap), wfIds st.1 →
      wfIds (l.foldl regionStep st).1 := by
    intro l
    induction l with
    | nil => exact fun st h => h
    | cons b l ih =>
      intro st h
      rw [List.foldl_cons]
      exact ih _ (wfIds_regionStep st b h)
  exact this (poBlocks p) _ hwf

/-- Claim C3: for every procedure, after region insertion (including the
final binary-invariant repair pass) completes, every non-region node of
the finished graph has at most one TRUE child and at most one FALSE
child. -/
theorem graphForFunction_binary_invariant (cfg : CFG) (p : PDTL) (n : Nat)
    (hn : n ∈ (graphForFunction cfg p).nodes)
    (hb : ((graphForFunction cfg p).dataOf n).block ≠ none) :
    (((graphForFunction cfg p).dataOf n).TrueChildren).length ≤ 1 ∧
    (((graphForFunction cfg p).dataOf n).FalseChildren).length ≤ 1 := by
  have hwf : wfIds (regionMainLoop p (computeDependencies cfg p)) :=
    wfIds_regionMainLoop p _ (wfIds_computeDependencies cfg p)
  rw [graphForFunction, insertRegions, repairPass] at hn hb ⊢
  by_cases hmem : n ∈ (regionMainLoop p (computeDependencies cfg p)).nodes
  · exact repairFold_fixes _ _ n hwf hmem hmem hb
  · exact absurd ((repairFold_basic _ _ hwf).2.2.2 n hn hmem) hb

/-- Witness for claim C3: node 1 (block 0) of the one-block procedure. -/
theorem graphForFunction_binary_invariant_witness :
    1 ∈ (graphForFunction cfgOne pdtOne).nodes ∧
    ((graphForFunction cfgOne pdtOne).dataOf 1).block ≠ none ∧
    (((graphForFunction cfgOne pdtOne).dataOf 1).TrueChildren).length ≤ 1 ∧
    (((graphForFunction cfgOne pdtOne).dataOf 1).FalseChildren).length ≤ 1 :=
  ⟨by rw [one_built]; decide, by rw [one_built]; decide,
    graphForFunction_binary_invariant cfgOne pdtOne 1
      (by rw [one_built]; decide) (by rw [one_built]; decide)⟩
